import Mathlib

/-!
Verification of the metrics-sync pipeline of an ad-spend dashboard backend.

The development shallowly embeds the pipeline's pure core:
* the merge-by-date step of the daily sync orchestrator
  (`SyncMetricsJob.handleDailySync`, `MetricsController.dailySync`,
  `MetricsController.rangeSync`),
* the persistence contracts of the three metric stores
  (`MetricsService.createOrUpdate`, `ProductMetricsService`,
  `TrafficMetricsService`),
* the vendor clients' error-handling skeletons (Shopify, Facebook, Google),
* Facebook's rate-limit retry helper and derived-metric computation, and
* Shopify's per-product revenue allocation.

JavaScript numbers are modelled as exact rationals (ℚ), Mongo collections as
lists of rows, `findOneAndUpdate`-with-upsert as "update the first matching
row, else append", and asynchronous vendor calls as functions of an explicit
outcome (success payload or error message).
-/

namespace AdSync

/-! ## Daily store metrics: data model

One row per (store, calendar date) with the five numeric metric fields, per
`store-metric.schema.ts`.  Dates are the ISO `YYYY-MM-DD` strings used as map
keys by the orchestrator. -/

structure MetricRecord where
  facebookMetaSpend : ℚ
  googleAdSpend : ℚ
  shopifySoldOrders : ℚ
  shopifyOrderValue : ℚ
  shopifySoldItems : ℚ
deriving DecidableEq, Repr

/-- The fresh entry created by `getOrCreateEntry`: all five metric fields 0. -/
def zeroMetricRecord : MetricRecord := ⟨0, 0, 0, 0, 0⟩

/-- A per-day Shopify result row, as returned by `ShopifyService.fetchOrders`. -/
structure ShopifyDailyRow where
  date : String
  soldOrders : ℚ
  orderValue : ℚ
  soldItems : ℚ
deriving DecidableEq, Repr

/-- A per-day ad-spend row, as returned by `FacebookService.fetchAdSpend` and
`GoogleService.fetchAdSpend` (`{date, spend}`). -/
structure SpendRow where
  date : String
  spend : ℚ
deriving DecidableEq, Repr

/-! ## Merge-by-date (orchestrator working map)

`metricsByDate` is a JS `Map<string, any>` keyed by ISO date string; entries
are created zero-initialised by `getOrCreateEntry` and then mutated in place.
We model it as an association list with insertion order; since an entry is
appended only when its key is absent, keys stay distinct, so rewriting every
entry with the key is the same as rewriting the one entry. -/

abbrev MetricsByDate := List (String × MetricRecord)

/-- `getOrCreateEntry(dateStr)` followed by a field mutation `f` of the
returned (aliased) entry. -/
def setEntry (m : MetricsByDate) (d : String) (f : MetricRecord → MetricRecord) :
    MetricsByDate :=
  if m.any (fun p => p.1 = d) then
    m.map (fun p => if p.1 = d then (p.1, f p.2) else p)
  else
    m ++ [(d, f zeroMetricRecord)]

/-- One vendor loop: for each result row, `getOrCreateEntry(row.date)` and
mutate the entry's vendor fields with `app`. -/
def processRows {β : Type} (dateOf : β → String) (app : MetricRecord → β → MetricRecord)
    (m : MetricsByDate) (rows : List β) : MetricsByDate :=
  rows.foldl (fun acc row => setEntry acc (dateOf row) (fun e => app e row)) m

/-- Field mutation of the `// Process Shopify` loop:
`entry.shopifySoldOrders = row.soldOrders` etc. -/
def applyShopify (e : MetricRecord) (row : ShopifyDailyRow) : MetricRecord :=
  { e with shopifySoldOrders := row.soldOrders, shopifyOrderValue := row.orderValue,
           shopifySoldItems := row.soldItems }

/-- Field mutation of the `// Process Facebook` loop:
`entry.facebookMetaSpend = row.spend`. -/
def applyFacebook (e : MetricRecord) (row : SpendRow) : MetricRecord :=
  { e with facebookMetaSpend := row.spend }

/-- Field mutation of the `// Process Google` loop (array branch):
`entry.googleAdSpend = row.spend`. -/
def applyGoogle (e : MetricRecord) (row : SpendRow) : MetricRecord :=
  { e with googleAdSpend := row.spend }

/-- The `// Process Shopify` loop of `handleDailySync` / `dailySync` / `rangeSync`. -/
def processShopify (m : MetricsByDate) (rows : List ShopifyDailyRow) : MetricsByDate :=
  processRows ShopifyDailyRow.date applyShopify m rows

/-- The `// Process Facebook` loop. -/
def processFacebook (m : MetricsByDate) (rows : List SpendRow) : MetricsByDate :=
  processRows SpendRow.date applyFacebook m rows

/-- The `// Process Google` loop (array branch). -/
def processGoogle (m : MetricsByDate) (rows : List SpendRow) : MetricsByDate :=
  processRows SpendRow.date applyGoogle m rows

/-- The complete merge-by-date step: Shopify, then Facebook, then Google rows
folded into an initially empty working map, exactly as in
`SyncMetricsJob.handleDailySync` lines 60–105 (and the identical code in
`MetricsController.dailySync` / `rangeSync`). -/
def mergeByDate (shopifyData : List ShopifyDailyRow) (fbData googleSpend : List SpendRow) :
    MetricsByDate :=
  processGoogle (processFacebook (processShopify [] shopifyData) fbData) googleSpend

/-- Lookup of a date key in the working map (JS `Map.get`). -/
def lookupDate (m : MetricsByDate) (d : String) : Option MetricRecord :=
  (m.find? (fun p => p.1 = d)).map Prod.snd

/-- The record the spec expects for a date: each vendor field taken from that
vendor's row for the date if it reported one, 0 otherwise. -/
def expectedRecord (s : List ShopifyDailyRow) (f g : List SpendRow) (d : String) :
    MetricRecord where
  facebookMetaSpend := ((f.find? (fun r => r.date = d)).map SpendRow.spend).getD 0
  googleAdSpend := ((g.find? (fun r => r.date = d)).map SpendRow.spend).getD 0
  shopifySoldOrders := ((s.find? (fun r => r.date = d)).map ShopifyDailyRow.soldOrders).getD 0
  shopifyOrderValue := ((s.find? (fun r => r.date = d)).map ShopifyDailyRow.orderValue).getD 0
  shopifySoldItems := ((s.find? (fun r => r.date = d)).map ShopifyDailyRow.soldItems).getD 0

/-! ### Lemmas about `setEntry` -/

theorem lookupDate_setEntry (m : MetricsByDate) (d : String)
    (f : MetricRecord → MetricRecord) (x : String) :
    lookupDate (setEntry m d f) x =
      if x = d then some (f ((lookupDate m d).getD zeroMetricRecord))
      else lookupDate m x := by
  unfold setEntry lookupDate
  by_cases hany : m.any (fun p => decide (p.1 = d)) = true
  · rw [if_pos hany, List.find?_map]
    have hfun : ((fun q : String × MetricRecord => decide (q.1 = x)) ∘
        (fun p : String × MetricRecord => if p.1 = d then (p.1, f p.2) else p)) =
        fun p : String × MetricRecord => decide (p.1 = x) := by
      funext p
      by_cases hp : p.1 = d <;> simp [hp]
    rw [hfun]
    by_cases hx : x = d
    · subst hx
      rcases hfind : m.find? (fun p => decide (p.1 = x)) with _ | p
      · exfalso
        rw [List.any_eq_true] at hany
        obtain ⟨p, hp, hpx⟩ := hany
        rw [List.find?_eq_none] at hfind
        have := hfind p hp
        simp only [decide_eq_true_eq] at hpx
        simp [hpx] at this
      · have hpx : p.1 = x := by simpa using List.find?_some hfind
        simp [hfind, hpx]
    · rw [if_neg hx]
      rcases hfind : m.find? (fun p => decide (p.1 = x)) with _ | p
      · simp [hfind]
      · have hpx : p.1 = x := by simpa using List.find?_some hfind
        have hpd : ¬ p.1 = d := by rw [hpx]; exact hx
        simp [hfind, hpd]
  · rw [if_neg hany, List.find?_append]
    have hnone : m.find? (fun p => decide (p.1 = d)) = none := by
      rw [List.find?_eq_none]
      intro p hp
      rw [List.any_eq_true] at hany
      push_neg at hany
      simpa using hany p hp
    by_cases hx : x = d
    · subst hx
      simp [hnone, Option.or]
    · rw [if_neg hx]
      rcases hfind : m.find? (fun p => decide (p.1 = x)) with _ | p
      · simp [hfind, Ne.symm hx, Option.or]
      · simp [hfind, Option.or]

theorem mem_keys_setEntry (m : MetricsByDate) (d : String)
    (f : MetricRecord → MetricRecord) (x : String) :
    (x ∈ (setEntry m d f).map Prod.fst) ↔ (x = d ∨ x ∈ m.map Prod.fst) := by
  unfold setEntry
  by_cases hany : m.any (fun p => decide (p.1 = d)) = true
  · rw [if_pos hany, List.map_map]
    have hkeys : m.map (Prod.fst ∘ fun p : String × MetricRecord =>
        if p.1 = d then (p.1, f p.2) else p) = m.map Prod.fst := by
      apply List.map_congr_left
      intro p _
      by_cases hp : p.1 = d <;> simp [hp]
    rw [hkeys]
    constructor
    · exact fun h => Or.inr h
    · rintro (rfl | h)
      · rw [List.any_eq_true] at hany
        obtain ⟨p, hp, hpx⟩ := hany
        simp only [decide_eq_true_eq] at hpx
        exact hpx ▸ List.mem_map_of_mem Prod.fst hp
      · exact h
  · rw [if_neg hany]
    simp [or_comm]

theorem nodup_keys_setEntry (m : MetricsByDate) (d : String)
    (f : MetricRecord → MetricRecord) (h : (m.map Prod.fst).Nodup) :
    ((setEntry m d f).map Prod.fst).Nodup := by
  unfold setEntry
  by_cases hany : m.any (fun p => decide (p.1 = d)) = true
  · rw [if_pos hany, List.map_map]
    have hkeys : m.map (Prod.fst ∘ fun p : String × MetricRecord =>
        if p.1 = d then (p.1, f p.2) else p) = m.map Prod.fst := by
      apply List.map_congr_left
      intro p _
      by_cases hp : p.1 = d <;> simp [hp]
    rw [hkeys]; exact h
  · rw [if_neg hany, List.map_append]
    refine List.Nodup.append h (by simp) ?_
    intro x hx hx'
    simp only [List.map_cons, List.map_nil, List.mem_singleton] at hx'
    subst hx'
    rw [List.any_eq_true] at hany
    push_neg at hany
    obtain ⟨p, hp, rfl⟩ := List.mem_map.mp hx
    exact absurd (by simp) (hany p hp)

/-! ### Lemmas about the vendor loops -/

theorem lookupDate_processRows {β : Type} (dateOf : β → String)
    (app : MetricRecord → β → MetricRecord) :
    ∀ (rows : List β) (m : MetricsByDate), (rows.map dateOf).Nodup → ∀ x,
      lookupDate (processRows dateOf app m rows) x =
        (rows.find? (fun r => dateOf r = x)).elim (lookupDate m x)
          (fun row => some (app ((lookupDate m x).getD zeroMetricRecord) row)) := by
  intro rows
  induction rows with
  | nil =>
    intro m _ x
    simp [processRows]
  | cons r rest ih =>
    intro m hn x
    rw [List.map_cons, List.nodup_cons] at hn
    have step : processRows dateOf app m (r :: rest) =
        processRows dateOf app (setEntry m (dateOf r) (fun e => app e r)) rest := rfl
    rw [step, ih _ hn.2 x]
    by_cases hx : dateOf r = x
    · have hrest : rest.find? (fun q => decide (dateOf q = x)) = none := by
        rw [List.find?_eq_none]
        intro q hq
        simp only [decide_eq_true_eq]
        intro hqx
        refine hn.1 ?_
        have hmem := List.mem_map_of_mem dateOf hq
        rwa [hqx, ← hx] at hmem
      rw [hrest]
      simp only [Option.elim_none]
      rw [lookupDate_setEntry, if_pos hx.symm, List.find?_cons_of_pos _ (by simp [hx])]
      simp [hx]
    · have hset : lookupDate (setEntry m (dateOf r) (fun e => app e r)) x = lookupDate m x := by
        rw [lookupDate_setEntry, if_neg (fun h => hx h.symm)]
      rw [List.find?_cons_of_neg _ (by simp [hx])]
      rcases hfind : rest.find? (fun q => decide (dateOf q = x)) with _ | q
      · simp [hset]
      · simp [hset]

theorem mem_keys_processRows {β : Type} (dateOf : β → String)
    (app : MetricRecord → β → MetricRecord) :
    ∀ (rows : List β) (m : MetricsByDate) (x : String),
      x ∈ (processRows dateOf app m rows).map Prod.fst ↔
        (x ∈ m.map Prod.fst ∨ x ∈ rows.map dateOf) := by
  intro rows
  induction rows with
  | nil =>
    intro m x
    simp [processRows]
  | cons r rest ih =>
    intro m x
    have step : processRows dateOf app m (r :: rest) =
        processRows dateOf app (setEntry m (dateOf r) (fun e => app e r)) rest := rfl
    rw [step, ih]
    rw [mem_keys_setEntry]
    simp only [List.map_cons, List.mem_cons]
    tauto

theorem nodup_keys_processRows {β : Type} (dateOf : β → String)
    (app : MetricRecord → β → MetricRecord) :
    ∀ (rows : List β) (m : MetricsByDate), (m.map Prod.fst).Nodup →
      ((processRows dateOf app m rows).map Prod.fst).Nodup := by
  intro rows
  induction rows with
  | nil =>
    intro m h
    simpa [processRows] using h
  | cons r rest ih =>
    intro m h
    exact ih _ (nodup_keys_setEntry _ _ _ h)

/-! ### C1: the merge-by-date step -/

/-- **C1.** For every sync window's vendor results (with each vendor reporting
each date at most once, as the clients do), the merge-by-date step produces:
one record per distinct date (distinct keys), covering exactly the union of
the dates appearing in the Shopify, Facebook and Google result arrays; and the
record stored for each date equals `expectedRecord`: every one of the five
metric fields starts at 0 and is overwritten only by the vendor that reported
the date, with the reported value, the others remaining 0; exactly one record
per distinct date is then upserted (the `metricsByDate.values()` loop upserts
each entry once). -/
theorem mergeByDate_covers_union_and_fields (s : List ShopifyDailyRow)
    (f g : List SpendRow)
    (hs : (s.map ShopifyDailyRow.date).Nodup) (hf : (f.map SpendRow.date).Nodup)
    (hg : (g.map SpendRow.date).Nodup) :
    ((mergeByDate s f g).map Prod.fst).Nodup ∧
    (∀ d, d ∈ (mergeByDate s f g).map Prod.fst ↔
      (d ∈ s.map ShopifyDailyRow.date ∨ d ∈ f.map SpendRow.date ∨ d ∈ g.map SpendRow.date)) ∧
    (∀ d, d ∈ (mergeByDate s f g).map Prod.fst →
      lookupDate (mergeByDate s f g) d = some (expectedRecord s f g d)) := by
  refine ⟨?_, ?_, ?_⟩
  · exact nodup_keys_processRows _ _ g _
      (nodup_keys_processRows _ _ f _ (nodup_keys_processRows _ _ s _ (by simp)))
  · intro d
    unfold mergeByDate processGoogle processFacebook processShopify
    rw [mem_keys_processRows, mem_keys_processRows, mem_keys_processRows]
    simp [or_assoc]
  · intro d hd
    have hmem : d ∈ s.map ShopifyDailyRow.date ∨ d ∈ f.map SpendRow.date ∨
        d ∈ g.map SpendRow.date := by
      revert hd
      unfold mergeByDate processGoogle processFacebook processShopify
      rw [mem_keys_processRows, mem_keys_processRows, mem_keys_processRows]
      simp [or_assoc]
    unfold mergeByDate processGoogle processFacebook processShopify
    rw [lookupDate_processRows _ _ g _ hg, lookupDate_processRows _ _ f _ hf,
      lookupDate_processRows _ _ s _ hs]
    unfold expectedRecord
    rcases hsf : s.find? (fun r => decide (r.date = d)) with _ | srow <;>
      rcases hff : f.find? (fun r => decide (r.date = d)) with _ | frow <;>
        rcases hgf : g.find? (fun r => decide (r.date = d)) with _ | grow
    · exfalso
      rcases hmem with h | h | h
      · obtain ⟨r, hr, rfl⟩ := List.mem_map.mp h
        have := List.find?_eq_none.mp hsf r hr
        simp at this
      · obtain ⟨r, hr, rfl⟩ := List.mem_map.mp h
        have := List.find?_eq_none.mp hff r hr
        simp at this
      · obtain ⟨r, hr, rfl⟩ := List.mem_map.mp h
        have := List.find?_eq_none.mp hgf r hr
        simp at this
    all_goals
      simp [hsf, hff, hgf, lookupDate, applyShopify, applyFacebook, applyGoogle,
        zeroMetricRecord]

/-- Witness for C1, on the spec's end-to-end example: Shopify
`{date:"2024-11-01", soldOrders:10, orderValue:500, soldItems:20}`, Facebook
`{date:"2024-11-01", spend:50}`, Google `{date:"2024-11-01", spend:30}` merge
into the single record with all five fields populated. -/
theorem mergeByDate_covers_union_and_fields_witness :
    lookupDate (mergeByDate [⟨"2024-11-01", 10, 500, 20⟩] [⟨"2024-11-01", 50⟩]
      [⟨"2024-11-01", 30⟩]) "2024-11-01" = some ⟨50, 30, 10, 500, 20⟩ := by
  have h := mergeByDate_covers_union_and_fields [⟨"2024-11-01", 10, 500, 20⟩]
    [⟨"2024-11-01", 50⟩] [⟨"2024-11-01", 30⟩] (by simp) (by simp) (by simp)
  have hmem : "2024-11-01" ∈ (mergeByDate [⟨"2024-11-01", 10, 500, 20⟩]
      [⟨"2024-11-01", 50⟩] [⟨"2024-11-01", 30⟩]).map Prod.fst :=
    (h.2.1 "2024-11-01").mpr (Or.inl (by simp))
  rw [h.2.2 "2024-11-01" hmem]
  simp [expectedRecord]

/-! ## C2: `MetricsService.createOrUpdate` (upsert by (storeId, date))

The Mongo collection is a list of rows; `findOneAndUpdate(filter, {$set: …},
{upsert: true})` updates the first row matching the filter, else inserts a new
row.  `StoreMetricSchema.index({storeId, date}, {unique})` is the invariant
that at most one row matches any (storeId, date); the theorem shows the upsert
preserves it. -/

structure StoreMetricRow where
  storeId : String
  date : String
  facebookMetaSpend : ℚ
  googleAdSpend : ℚ
  shopifySoldOrders : ℚ
  shopifyOrderValue : ℚ
  shopifySoldItems : ℚ
deriving DecidableEq, Repr

/-- `CreateMetricInput` of `metrics.service.ts`. -/
structure CreateMetricInput where
  storeId : String
  date : String
  facebookMetaSpend : ℚ
  googleAdSpend : ℚ
  shopifySoldOrders : ℚ
  shopifyOrderValue : ℚ
  shopifySoldItems : ℚ
deriving DecidableEq, Repr

/-- The `findOneAndUpdate` filter `{storeId, date}`. -/
def metricKeyMatches (r : StoreMetricRow) (sid d : String) : Bool :=
  r.storeId == sid && r.date == d

/-- The `$set` document: all five metric fields replaced by the input's. -/
def setMetricFields (r : StoreMetricRow) (input : CreateMetricInput) : StoreMetricRow :=
  { r with facebookMetaSpend := input.facebookMetaSpend,
           googleAdSpend := input.googleAdSpend,
           shopifySoldOrders := input.shopifySoldOrders,
           shopifyOrderValue := input.shopifyOrderValue,
           shopifySoldItems := input.shopifySoldItems }

/-- The row inserted when the filter matches nothing: filter fields plus the
`$set` fields. -/
def newMetricRow (input : CreateMetricInput) : StoreMetricRow :=
  ⟨input.storeId, input.date, input.facebookMetaSpend, input.googleAdSpend,
   input.shopifySoldOrders, input.shopifyOrderValue, input.shopifySoldItems⟩

/-- `MetricsService.createOrUpdate`: atomic find-one-and-update with upsert. -/
def createOrUpdate : List StoreMetricRow → CreateMetricInput → List StoreMetricRow
  | [], input => [newMetricRow input]
  | r :: rest, input =>
    if metricKeyMatches r input.storeId input.date then setMetricFields r input :: rest
    else r :: createOrUpdate rest input

/-- Number of rows for a given (storeId, date) key. -/
def keyCount (db : List StoreMetricRow) (sid d : String) : Nat :=
  (db.filter (fun r => metricKeyMatches r sid d)).length

theorem metricKeyMatches_setMetricFields (r : StoreMetricRow) (input : CreateMetricInput)
    (sid d : String) :
    metricKeyMatches (setMetricFields r input) sid d = metricKeyMatches r sid d := by
  simp [metricKeyMatches, setMetricFields]

theorem keyCount_createOrUpdate_other (db : List StoreMetricRow)
    (input : CreateMetricInput) (sid d : String)
    (h : ¬(sid = input.storeId ∧ d = input.date)) :
    keyCount (createOrUpdate db input) sid d = keyCount db sid d := by
  induction db with
  | nil =>
    have hnew : metricKeyMatches (newMetricRow input) sid d = false := by
      rcases not_and_or.mp h with h1 | h1 <;>
        simp [metricKeyMatches, newMetricRow] <;> intro <;> tauto
    simp [createOrUpdate, keyCount, hnew]
  | cons r rest ih =>
    by_cases hr : metricKeyMatches r input.storeId input.date
    · have hrsd : metricKeyMatches r sid d = false := by
        simp only [metricKeyMatches, Bool.and_eq_true, beq_iff_eq] at hr
        rcases not_and_or.mp h with h1 | h1 <;>
          simp [metricKeyMatches, hr.1, hr.2] <;> intro <;> tauto
      simp only [createOrUpdate, if_pos hr]
      simp [keyCount, List.filter_cons, metricKeyMatches_setMetricFields, hrsd]
    · simp only [createOrUpdate, if_neg hr]
      simp only [keyCount, List.filter_cons] at *
      by_cases hrk : metricKeyMatches r sid d <;> simp [hrk, ih]

theorem keyCount_createOrUpdate_self (db : List StoreMetricRow)
    (input : CreateMetricInput) :
    keyCount (createOrUpdate db input) input.storeId input.date =
      max (keyCount db input.storeId input.date) 1 := by
  induction db with
  | nil =>
    simp [createOrUpdate, keyCount, newMetricRow, metricKeyMatches]
  | cons r rest ih =>
    by_cases hr : metricKeyMatches r input.storeId input.date
    · simp only [createOrUpdate, if_pos hr]
      simp [keyCount, List.filter_cons, metricKeyMatches_setMetricFields, hr]
    · simp only [createOrUpdate, if_neg hr]
      simp only [keyCount, List.filter_cons] at *
      simp [hr, ih]

theorem find?_createOrUpdate_self (db : List StoreMetricRow) (input : CreateMetricInput) :
    (createOrUpdate db input).find?
        (fun r => metricKeyMatches r input.storeId input.date) =
      some ((db.find? (fun r => metricKeyMatches r input.storeId input.date)).elim
        (newMetricRow input) (fun r0 => setMetricFields r0 input)) := by
  induction db with
  | nil =>
    simp [createOrUpdate, newMetricRow, metricKeyMatches]
  | cons r rest ih =>
    by_cases hr : metricKeyMatches r input.storeId input.date
    · simp only [createOrUpdate, if_pos hr]
      have h1 : (setMetricFields r input :: rest).find?
          (fun q => metricKeyMatches q input.storeId input.date) =
          some (setMetricFields r input) :=
        List.find?_cons_of_pos _ (by simpa [metricKeyMatches_setMetricFields] using hr)
      have h2 : (r :: rest).find?
          (fun q => metricKeyMatches q input.storeId input.date) = some r :=
        List.find?_cons_of_pos _ hr
      rw [h1, h2]
      simp
    · simp only [createOrUpdate, if_neg hr]
      have h1 : (r :: createOrUpdate rest input).find?
          (fun q => metricKeyMatches q input.storeId input.date) =
          (createOrUpdate rest input).find?
            (fun q => metricKeyMatches q input.storeId input.date) :=
        List.find?_cons_of_neg _ (by simpa using hr)
      have h2 : (r :: rest).find?
          (fun q => metricKeyMatches q input.storeId input.date) =
          rest.find? (fun q => metricKeyMatches q input.storeId input.date) :=
        List.find?_cons_of_neg _ (by simpa using hr)
      rw [h1, h2]
      exact ih

theorem filter_not_key_createOrUpdate (db : List StoreMetricRow)
    (input : CreateMetricInput) :
    (createOrUpdate db input).filter
        (fun r => !(metricKeyMatches r input.storeId input.date)) =
      db.filter (fun r => !(metricKeyMatches r input.storeId input.date)) := by
  induction db with
  | nil =>
    simp [createOrUpdate, newMetricRow, metricKeyMatches]
  | cons r rest ih =>
    by_cases hr : metricKeyMatches r input.storeId input.date
    · simp only [createOrUpdate, if_pos hr]
      rw [List.filter_cons_of_neg (by simpa [metricKeyMatches_setMetricFields] using hr),
        List.filter_cons_of_neg (by simpa using hr)]
    · simp only [createOrUpdate, if_neg hr]
      rw [List.filter_cons_of_pos (by simpa using hr),
        List.filter_cons_of_pos (by simpa using hr), ih]

theorem keyCount_foldl_createOrUpdate :
    ∀ (inputs : List CreateMetricInput) (db : List StoreMetricRow),
      (∀ sid d, keyCount db sid d ≤ 1) →
      ∀ sid d, keyCount (inputs.foldl createOrUpdate db) sid d ≤ 1 := by
  intro inputs
  induction inputs with
  | nil =>
    intro db hinv sid d
    exact hinv sid d
  | cons i rest ih =>
    intro db hinv sid d
    refine ih (createOrUpdate db i) ?_ sid d
    intro sid2 d2
    by_cases h : sid2 = i.storeId ∧ d2 = i.date
    · obtain ⟨rfl, rfl⟩ := h
      rw [keyCount_createOrUpdate_self]
      have := hinv i.storeId i.date
      omega
    · rw [keyCount_createOrUpdate_other db i sid2 d2 h]
      exact hinv sid2 d2

/-- **C2.** Under the unique-index invariant (at most one row per
(storeId, date)), any number of `createOrUpdate` runs preserves the invariant;
the row stored for the upserted key carries exactly the input's five metric
fields — a full replace of whatever was there, not an accumulation and not a
duplicate — and every row with a different (storeId, date) is untouched. -/
theorem createOrUpdate_unique_and_replaces (db : List StoreMetricRow)
    (hinv : ∀ sid d, keyCount db sid d ≤ 1) :
    (∀ inputs : List CreateMetricInput, ∀ sid d,
      keyCount (inputs.foldl createOrUpdate db) sid d ≤ 1) ∧
    (∀ input : CreateMetricInput, ∀ r,
      (createOrUpdate db input).find?
          (fun r => metricKeyMatches r input.storeId input.date) = some r →
        r.storeId = input.storeId ∧ r.date = input.date ∧
        r.facebookMetaSpend = input.facebookMetaSpend ∧
        r.googleAdSpend = input.googleAdSpend ∧
        r.shopifySoldOrders = input.shopifySoldOrders ∧
        r.shopifyOrderValue = input.shopifyOrderValue ∧
        r.shopifySoldItems = input.shopifySoldItems) ∧
    (∀ input : CreateMetricInput,
      (createOrUpdate db input).filter
          (fun r => !(metricKeyMatches r input.storeId input.date)) =
        db.filter (fun r => !(metricKeyMatches r input.storeId input.date))) := by
  refine ⟨fun inputs => keyCount_foldl_createOrUpdate inputs db hinv, ?_, ?_⟩
  · intro input r hfind
    rw [find?_createOrUpdate_self] at hfind
    rcases hdb : db.find? (fun r => metricKeyMatches r input.storeId input.date)
      with _ | r0
    · rw [hdb] at hfind
      simp only [Option.elim_none, Option.some.injEq] at hfind
      subst hfind
      simp [newMetricRow]
    · rw [hdb] at hfind
      simp only [Option.elim_some, Option.some.injEq] at hfind
      subst hfind
      have hkey := List.find?_some hdb
      simp only [metricKeyMatches, Bool.and_eq_true, beq_iff_eq] at hkey
      simp [setMetricFields, hkey.1, hkey.2]
  · intro input
    exact filter_not_key_createOrUpdate db input

/-- Witness for C2: two successive syncs of store `"s"` for `2024-11-01` — the
second run's values fully replace the first's, one row remains. -/
theorem createOrUpdate_unique_and_replaces_witness :
    keyCount ([CreateMetricInput.mk "s" "2024-11-01" 1 2 3 4 5,
        CreateMetricInput.mk "s" "2024-11-01" 50 30 10 500 20].foldl createOrUpdate [])
      "s" "2024-11-01" ≤ 1 := by
  have h := createOrUpdate_unique_and_replaces [] (by intro sid d; simp [keyCount])
  exact h.1 [CreateMetricInput.mk "s" "2024-11-01" 1 2 3 4 5,
    CreateMetricInput.mk "s" "2024-11-01" 50 30 10 500 20] "s" "2024-11-01"

/-! ## C3: `ProductMetricsService` — reset-then-resync of product totals

`resetStoreProducts` zeroes `totalQuantitySold`/`totalRevenue` in place for
every row of the store (`updateMany` + `$set`); `upsertProductMetric` is a
find-one-and-update by (storeId, productId) with `$set` on the metadata fields
and `$inc` on the two totals, upserting when absent.
`SyncProductMetricsJob.handleDailyProductSync` resets, then upserts every
fetched batch item for the store. -/

structure ProductMetricRow where
  storeId : String
  productId : String
  productName : String
  productImage : String
  productUrl : String
  totalQuantitySold : ℚ
  totalRevenue : ℚ
  lastSyncDate : String
deriving DecidableEq, Repr

/-- `ProductSalesInput` of `product-metric.service.ts`. -/
structure ProductSalesInput where
  storeId : String
  productId : String
  productName : String
  productImage : String
  productUrl : String
  quantitySold : ℚ
  revenue : ℚ
deriving DecidableEq, Repr

/-- The `findOneAndUpdate` filter `{storeId, productId}`. -/
def productKeyMatches (r : ProductMetricRow) (sid pid : String) : Bool :=
  r.storeId == sid && r.productId == pid

/-- `$set` (metadata, lastSyncDate) plus `$inc` (totals) on an existing row.
`now` stands for the `new Date()` written to `lastSyncDate`. -/
def applyProductUpsert (r : ProductMetricRow) (input : ProductSalesInput)
    (now : String) : ProductMetricRow :=
  { r with productName := input.productName, productImage := input.productImage,
           productUrl := input.productUrl, lastSyncDate := now,
           totalQuantitySold := r.totalQuantitySold + input.quantitySold,
           totalRevenue := r.totalRevenue + input.revenue }

/-- The row inserted by the upsert when the filter matches nothing: filter
fields, `$set` fields, and `$inc` applied to the schema defaults 0. -/
def newProductRow (input : ProductSalesInput) (now : String) : ProductMetricRow :=
  ⟨input.storeId, input.productId, input.productName, input.productImage,
   input.productUrl, input.quantitySold, input.revenue, now⟩

/-- `ProductMetricsService.upsertProductMetric`. -/
def upsertProductMetric : List ProductMetricRow → ProductSalesInput → String →
    List ProductMetricRow
  | [], input, now => [newProductRow input now]
  | r :: rest, input, now =>
    if productKeyMatches r input.storeId input.productId then
      applyProductUpsert r input now :: rest
    else r :: upsertProductMetric rest input now

/-- `ProductMetricsService.resetStoreProducts`: `updateMany({storeId},
{$set: {totalQuantitySold: 0, totalRevenue: 0}})`. -/
def resetStoreProducts (db : List ProductMetricRow) (storeId : String) :
    List ProductMetricRow :=
  db.map (fun r => if r.storeId == storeId then
    { r with totalQuantitySold := 0, totalRevenue := 0 } else r)

/-- `ProductSalesData` as returned by `ShopifyService.fetchProductSales`. -/
structure ProductSalesData where
  productId : String
  productName : String
  productImage : String
  productUrl : String
  quantitySold : ℚ
  revenue : ℚ
deriving DecidableEq, Repr

/-- The upsert input built by `SyncProductMetricsJob.handleDailyProductSync`
for one fetched product of the store. -/
def inputOfProduct (storeId : String) (p : ProductSalesData) : ProductSalesInput :=
  ⟨storeId, p.productId, p.productName, p.productImage, p.productUrl,
   p.quantitySold, p.revenue⟩

/-- Per-store body of `SyncProductMetricsJob.handleDailyProductSync` (and
`handleMonthlyFullSync`): reset the store's rows, then upsert each item of the
freshly fetched batch. -/
def syncStoreProducts (db : List ProductMetricRow) (storeId : String)
    (productSales : List ProductSalesData) (now : String) : List ProductMetricRow :=
  productSales.foldl (fun acc p => upsertProductMetric acc (inputOfProduct storeId p) now)
    (resetStoreProducts db storeId)

/-- Sum of `totalQuantitySold` over the rows for a (storeId, productId) key. -/
def totalQtyAt (db : List ProductMetricRow) (sid pid : String) : ℚ :=
  ((db.filter (fun r => productKeyMatches r sid pid)).map
    ProductMetricRow.totalQuantitySold).sum

/-- Sum of `totalRevenue` over the rows for a (storeId, productId) key. -/
def totalRevAt (db : List ProductMetricRow) (sid pid : String) : ℚ :=
  ((db.filter (fun r => productKeyMatches r sid pid)).map
    ProductMetricRow.totalRevenue).sum

/-- Quantity the fetched batch reports for a product id. -/
def batchQty (batch : List ProductSalesData) (pid : String) : ℚ :=
  ((batch.filter (fun p => p.productId == pid)).map ProductSalesData.quantitySold).sum

/-- Revenue the fetched batch reports for a product id. -/
def batchRev (batch : List ProductSalesData) (pid : String) : ℚ :=
  ((batch.filter (fun p => p.productId == pid)).map ProductSalesData.revenue).sum

theorem productKeyMatches_eq_keys (r : ProductMetricRow) (sid pid : String) :
    productKeyMatches r sid pid = true ↔ (r.storeId = sid ∧ r.productId = pid) := by
  simp [productKeyMatches]

theorem productKeyMatches_applyProductUpsert (r : ProductMetricRow)
    (input : ProductSalesInput) (now : String) (sid pid : String) :
    productKeyMatches (applyProductUpsert r input now) sid pid =
      productKeyMatches r sid pid := by
  simp [productKeyMatches, applyProductUpsert]

/-- Sum of a numeric field over the rows of a (storeId, productId) key. -/
def sumFieldAt (φ : ProductMetricRow → ℚ) (db : List ProductMetricRow)
    (sid pid : String) : ℚ :=
  ((db.filter (fun r => productKeyMatches r sid pid)).map φ).sum

theorem totalQtyAt_eq_sumFieldAt (db : List ProductMetricRow) (sid pid : String) :
    totalQtyAt db sid pid = sumFieldAt ProductMetricRow.totalQuantitySold db sid pid := rfl

theorem totalRevAt_eq_sumFieldAt (db : List ProductMetricRow) (sid pid : String) :
    totalRevAt db sid pid = sumFieldAt ProductMetricRow.totalRevenue db sid pid := rfl

theorem sumFieldAt_resetStoreProducts (φ : ProductMetricRow → ℚ)
    (hφ : ∀ r : ProductMetricRow,
      φ { r with totalQuantitySold := 0, totalRevenue := 0 } = 0)
    (db : List ProductMetricRow) (sid pid : String) :
    sumFieldAt φ (resetStoreProducts db sid) sid pid = 0 := by
  induction db with
  | nil => simp [resetStoreProducts, sumFieldAt]
  | cons r rest ih =>
    simp only [resetStoreProducts, List.map_cons] at *
    by_cases hr : r.storeId = sid
    · rw [if_pos (by simpa using hr)]
      simp only [sumFieldAt] at *
      by_cases hp : r.productId = pid
      · rw [List.filter_cons_of_pos (by simp [productKeyMatches, hr, hp])]
        simp only [List.map_cons, List.sum_cons, hφ r]
        simpa using ih
      · rw [List.filter_cons_of_neg (by simp [productKeyMatches, hp])]
        exact ih
    · rw [if_neg (by simpa using hr)]
      simp only [sumFieldAt] at *
      rw [List.filter_cons_of_neg (by simp [productKeyMatches, hr])]
      exact ih

theorem sumFieldAt_upsertProductMetric (φ : ProductMetricRow → ℚ)
    (ψ : ProductSalesInput → ℚ)
    (happly : ∀ (r : ProductMetricRow) (input : ProductSalesInput) (now : String),
      φ (applyProductUpsert r input now) = φ r + ψ input)
    (hnew : ∀ (input : ProductSalesInput) (now : String),
      φ (newProductRow input now) = ψ input)
    (db : List ProductMetricRow) (input : ProductSalesInput) (now : String)
    (sid pid : String) :
    sumFieldAt φ (upsertProductMetric db input now) sid pid =
      sumFieldAt φ db sid pid +
        (if input.storeId = sid ∧ input.productId = pid then ψ input else 0) := by
  induction db with
  | nil =>
    by_cases h : input.storeId = sid ∧ input.productId = pid
    · obtain ⟨hs, hp⟩ := h
      rw [if_pos ⟨hs, hp⟩]
      simp only [upsertProductMetric, sumFieldAt]
      rw [List.filter_cons_of_pos (by simp [productKeyMatches, newProductRow, hs, hp])]
      simp [hnew]
    · rw [if_neg h]
      have hnewkey : productKeyMatches (newProductRow input now) sid pid = false := by
        rcases Classical.em (input.storeId = sid) with h1 | h1
        · have h2 : ¬ input.productId = pid := fun h2 => h ⟨h1, h2⟩
          simp [productKeyMatches, newProductRow, h2]
        · simp [productKeyMatches, newProductRow, h1]
      simp [upsertProductMetric, sumFieldAt, hnewkey]
  | cons r rest ih =>
    by_cases hr : productKeyMatches r input.storeId input.productId
    · simp only [upsertProductMetric, if_pos hr]
      have hrkeys : r.storeId = input.storeId ∧ r.productId = input.productId := by
        simpa [productKeyMatches] using hr
      by_cases h : input.storeId = sid ∧ input.productId = pid
      · obtain ⟨hs, hp⟩ := h
        rw [if_pos ⟨hs, hp⟩]
        simp only [sumFieldAt]
        rw [List.filter_cons_of_pos (by
            simp [productKeyMatches, applyProductUpsert, hrkeys.1, hrkeys.2, hs, hp]),
          List.filter_cons_of_pos (by
            simp [productKeyMatches, hrkeys.1, hrkeys.2, hs, hp])]
        simp only [List.map_cons, List.sum_cons, happly]
        ring
      · have hrsd : productKeyMatches r sid pid = false := by
          rcases Classical.em (input.storeId = sid) with h1 | h1
          · have h2 : ¬ input.productId = pid := fun h2 => h ⟨h1, h2⟩
            simp [productKeyMatches, hrkeys.2, h2]
          · simp [productKeyMatches, hrkeys.1, h1]
        rw [if_neg h]
        simp only [sumFieldAt]
        rw [List.filter_cons_of_neg (by
            simp only [productKeyMatches, applyProductUpsert] at *
            simpa using hrsd),
          List.filter_cons_of_neg (by simp [hrsd])]
        simp
    · simp only [upsertProductMetric, if_neg hr]
      simp only [sumFieldAt] at *
      by_cases hrk : productKeyMatches r sid pid
      · rw [List.filter_cons_of_pos (by exact hrk), List.filter_cons_of_pos (by exact hrk)]
        simp only [List.map_cons, List.sum_cons]
        rw [ih]
        ring
      · rw [List.filter_cons_of_neg (by simpa using hrk),
          List.filter_cons_of_neg (by simpa using hrk)]
        exact ih

theorem sumFieldAt_syncFold (φ : ProductMetricRow → ℚ) (ψ : ProductSalesInput → ℚ)
    (ψd : ProductSalesData → ℚ)
    (happly : ∀ (r : ProductMetricRow) (input : ProductSalesInput) (now : String),
      φ (applyProductUpsert r input now) = φ r + ψ input)
    (hnew : ∀ (input : ProductSalesInput) (now : String),
      φ (newProductRow input now) = ψ input)
    (storeId : String) (now : String) (pid : String)
    (hψ : ∀ p : ProductSalesData, ψ (inputOfProduct storeId p) = ψd p) :
    ∀ (batch : List ProductSalesData) (acc : List ProductMetricRow),
      sumFieldAt φ (batch.foldl
          (fun a p => upsertProductMetric a (inputOfProduct storeId p) now) acc)
        storeId pid =
      sumFieldAt φ acc storeId pid +
        ((batch.filter (fun p => p.productId == pid)).map ψd).sum := by
  intro batch
  induction batch with
  | nil =>
    intro acc
    simp
  | cons p rest ih =>
    intro acc
    rw [List.foldl_cons, ih]
    rw [sumFieldAt_upsertProductMetric φ ψ happly hnew]
    by_cases hp : p.productId = pid
    · rw [List.filter_cons_of_pos (by simpa using hp)]
      rw [if_pos (⟨rfl, hp⟩ : (inputOfProduct storeId p).storeId = storeId ∧
        (inputOfProduct storeId p).productId = pid)]
      rw [hψ p]
      simp only [List.map_cons, List.sum_cons]
      ring
    · rw [List.filter_cons_of_neg (by simpa using hp)]
      rw [if_neg (fun hc : (inputOfProduct storeId p).storeId = storeId ∧
        (inputOfProduct storeId p).productId = pid => hp hc.2)]
      simp

/-- Number of rows for a (storeId, productId) key (the unique index of
`ProductMetricSchema`). -/
def productKeyCount (db : List ProductMetricRow) (sid pid : String) : Nat :=
  (db.filter (fun r => productKeyMatches r sid pid)).length

theorem productKeyCount_resetStoreProducts (db : List ProductMetricRow)
    (s sid pid : String) :
    productKeyCount (resetStoreProducts db s) sid pid = productKeyCount db sid pid := by
  induction db with
  | nil => simp [resetStoreProducts, productKeyCount]
  | cons r rest ih =>
    simp only [resetStoreProducts, List.map_cons] at *
    simp only [productKeyCount] at *
    by_cases hr : r.storeId = s
    · rw [if_pos (by simpa using hr)]
      by_cases hrk : productKeyMatches r sid pid
      · rw [List.filter_cons_of_pos (by
            simpa [productKeyMatches] using hrk),
          List.filter_cons_of_pos (by exact hrk)]
        simpa using ih
      · rw [List.filter_cons_of_neg (by
            simp only [productKeyMatches] at *
            simpa using hrk),
          List.filter_cons_of_neg (by simpa using hrk)]
        exact ih
    · rw [if_neg (by simpa using hr)]
      by_cases hrk : productKeyMatches r sid pid
      · rw [List.filter_cons_of_pos (by exact hrk),
          List.filter_cons_of_pos (by exact hrk)]
        simpa using ih
      · rw [List.filter_cons_of_neg (by simpa using hrk),
          List.filter_cons_of_neg (by simpa using hrk)]
        exact ih

theorem productKeyCount_upsert_self (db : List ProductMetricRow)
    (input : ProductSalesInput) (now : String) :
    productKeyCount (upsertProductMetric db input now) input.storeId input.productId =
      max (productKeyCount db input.storeId input.productId) 1 := by
  induction db with
  | nil =>
    simp [upsertProductMetric, productKeyCount, newProductRow, productKeyMatches]
  | cons r rest ih =>
    by_cases hr : productKeyMatches r input.storeId input.productId
    · simp only [upsertProductMetric, if_pos hr]
      simp only [productKeyCount] at *
      rw [List.filter_cons_of_pos (by
          simpa [productKeyMatches, applyProductUpsert] using hr),
        List.filter_cons_of_pos (by exact hr)]
      simp
    · simp only [upsertProductMetric, if_neg hr]
      simp only [productKeyCount] at *
      rw [List.filter_cons_of_neg (by simpa using hr),
        List.filter_cons_of_neg (by simpa using hr)]
      exact ih

theorem productKeyCount_upsert_other (db : List ProductMetricRow)
    (input : ProductSalesInput) (now : String) (sid pid : String)
    (h : ¬(sid = input.storeId ∧ pid = input.productId)) :
    productKeyCount (upsertProductMetric db input now) sid pid =
      productKeyCount db sid pid := by
  have hkeyne : ∀ r : ProductMetricRow,
      productKeyMatches r input.storeId input.productId = true →
      productKeyMatches r sid pid = false := by
    intro r hrk
    have hk : r.storeId = input.storeId ∧ r.productId = input.productId := by
      simpa [productKeyMatches] using hrk
    rcases Classical.em (sid = input.storeId) with h1 | h1
    · have h2 : ¬ pid = input.productId := fun h2 => h ⟨h1, h2⟩
      have h3 : ¬ r.productId = pid := by
        rw [hk.2]
        exact fun hx => h2 hx.symm
      simp [productKeyMatches, h3]
    · have h3 : ¬ r.storeId = sid := by
        rw [hk.1]
        exact fun hx => h1 hx.symm
      simp [productKeyMatches, h3]
  induction db with
  | nil =>
    have hnew : productKeyMatches (newProductRow input now) sid pid = false :=
      hkeyne _ (by simp [productKeyMatches, newProductRow])
    simp [upsertProductMetric, productKeyCount, hnew]
  | cons r rest ih =>
    by_cases hr : productKeyMatches r input.storeId input.productId
    · simp only [upsertProductMetric, if_pos hr]
      simp only [productKeyCount] at *
      have h1 : productKeyMatches (applyProductUpsert r input now) sid pid = false := by
        have := hkeyne r hr
        simpa [productKeyMatches, applyProductUpsert] using this
      rw [List.filter_cons_of_neg (by simp [h1]),
        List.filter_cons_of_neg (by simp [hkeyne r hr])]
    · simp only [upsertProductMetric, if_neg hr]
      simp only [productKeyCount] at *
      by_cases hrk : productKeyMatches r sid pid
      · rw [List.filter_cons_of_pos (by exact hrk),
          List.filter_cons_of_pos (by exact hrk)]
        simpa using ih
      · rw [List.filter_cons_of_neg (by simpa using hrk),
          List.filter_cons_of_neg (by simpa using hrk)]
        exact ih

theorem filter_eq_singleton_of_count_le_one {α : Type} (l : List α) (p : α → Bool)
    (r : α) (hc : (l.filter p).length ≤ 1) (hm : r ∈ l) (hp : p r = true) :
    l.filter p = [r] := by
  have hrf : r ∈ l.filter p := List.mem_filter.mpr ⟨hm, hp⟩
  have hpos : 0 < (l.filter p).length := List.length_pos_of_mem hrf
  have hlen : (l.filter p).length = 1 := by omega
  obtain ⟨a, ha⟩ := List.length_eq_one.mp hlen
  rw [ha] at hrf
  simp only [List.mem_singleton] at hrf
  rw [ha, hrf]

theorem filter_other_store_reset (db : List ProductMetricRow) (s : String) :
    (resetStoreProducts db s).filter (fun r => !(r.storeId == s)) =
      db.filter (fun r => !(r.storeId == s)) := by
  induction db with
  | nil => simp [resetStoreProducts]
  | cons r rest ih =>
    simp only [resetStoreProducts, List.map_cons] at *
    by_cases hr : r.storeId = s
    · rw [if_pos (by simpa using hr)]
      rw [List.filter_cons_of_neg (by simp [hr]),
        List.filter_cons_of_neg (by simp [hr])]
      exact ih
    · rw [if_neg (by simpa using hr)]
      rw [List.filter_cons_of_pos (by simp [hr]),
        List.filter_cons_of_pos (by simp [hr])]
      rw [ih]

theorem filter_other_store_upsert (db : List ProductMetricRow)
    (input : ProductSalesInput) (now : String) :
    (upsertProductMetric db input now).filter (fun r => !(r.storeId == input.storeId)) =
      db.filter (fun r => !(r.storeId == input.storeId)) := by
  induction db with
  | nil =>
    simp [upsertProductMetric, newProductRow]
  | cons r rest ih =>
    by_cases hr : productKeyMatches r input.storeId input.productId
    · simp only [upsertProductMetric, if_pos hr]
      have hk : r.storeId = input.storeId := by
        have := (productKeyMatches_eq_keys r input.storeId input.productId).mp hr
        exact this.1
      rw [List.filter_cons_of_neg (by simp [applyProductUpsert, hk]),
        List.filter_cons_of_neg (by simp [hk])]
    · simp only [upsertProductMetric, if_neg hr]
      by_cases hrs : r.storeId = input.storeId
      · rw [List.filter_cons_of_neg (by simp [hrs]),
          List.filter_cons_of_neg (by simp [hrs])]
        exact ih
      · rw [List.filter_cons_of_pos (by simp [hrs]),
          List.filter_cons_of_pos (by simp [hrs])]
        rw [ih]

theorem filter_other_store_syncFold (storeId now : String) :
    ∀ (batch : List ProductSalesData) (acc : List ProductMetricRow),
      ((batch.foldl (fun a p => upsertProductMetric a (inputOfProduct storeId p) now)
          acc).filter (fun r => !(r.storeId == storeId))) =
        acc.filter (fun r => !(r.storeId == storeId)) := by
  intro batch
  induction batch with
  | nil =>
    intro acc
    simp
  | cons p rest ih =>
    intro acc
    rw [List.foldl_cons, ih]
    exact filter_other_store_upsert acc (inputOfProduct storeId p) now

theorem productKeyCount_syncFold_le_one (storeId now : String) :
    ∀ (batch : List ProductSalesData) (acc : List ProductMetricRow),
      (∀ sid pid, productKeyCount acc sid pid ≤ 1) →
      ∀ sid pid, productKeyCount
        (batch.foldl (fun a p => upsertProductMetric a (inputOfProduct storeId p) now) acc)
        sid pid ≤ 1 := by
  intro batch
  induction batch with
  | nil =>
    intro acc hinv sid pid
    exact hinv sid pid
  | cons p rest ih =>
    intro acc hinv sid pid
    rw [List.foldl_cons]
    refine ih _ ?_ sid pid
    intro sid2 pid2
    by_cases h : sid2 = (inputOfProduct storeId p).storeId ∧
        pid2 = (inputOfProduct storeId p).productId
    · rw [h.1, h.2, productKeyCount_upsert_self]
      have := hinv (inputOfProduct storeId p).storeId (inputOfProduct storeId p).productId
      omega
    · rw [productKeyCount_upsert_other _ _ _ _ _ h]
      exact hinv sid2 pid2

/-- **C3.** Under the unique-index invariant on (storeId, productId),
executing reset-then-resync (`resetStoreProducts` for the store, then
`upsertProductMetric` for each item of the freshly fetched batch, as
`SyncProductMetricsJob.handleDailyProductSync` does) leaves, for every product
id, the store's total quantity and total revenue equal exactly to the sums
over the new batch alone — in particular every surviving row of the store
carries exactly the batch's sums for its product, independent of the totals it
held before the reset — while rows of other stores are untouched. -/
theorem resetThenResync_totals_eq_batch (db : List ProductMetricRow)
    (storeId : String) (batch : List ProductSalesData) (now : String)
    (hinv : ∀ sid pid, productKeyCount db sid pid ≤ 1) :
    (∀ pid, totalQtyAt (syncStoreProducts db storeId batch now) storeId pid =
      batchQty batch pid) ∧
    (∀ pid, totalRevAt (syncStoreProducts db storeId batch now) storeId pid =
      batchRev batch pid) ∧
    (∀ r ∈ syncStoreProducts db storeId batch now, r.storeId = storeId →
      r.totalQuantitySold = batchQty batch r.productId ∧
      r.totalRevenue = batchRev batch r.productId) ∧
    ((syncStoreProducts db storeId batch now).filter
        (fun r => !(r.storeId == storeId)) =
      db.filter (fun r => !(r.storeId == storeId))) := by
  have hqty : ∀ pid, totalQtyAt (syncStoreProducts db storeId batch now) storeId pid =
      batchQty batch pid := by
    intro pid
    rw [totalQtyAt_eq_sumFieldAt]
    unfold syncStoreProducts
    rw [sumFieldAt_syncFold ProductMetricRow.totalQuantitySold
      ProductSalesInput.quantitySold ProductSalesData.quantitySold
      (by intro r input n; simp [applyProductUpsert])
      (by intro input n; simp [newProductRow])
      storeId now pid (by intro p; simp [inputOfProduct]) batch
      (resetStoreProducts db storeId)]
    rw [sumFieldAt_resetStoreProducts _ (by intro r; rfl)]
    simp [batchQty]
  have hrev : ∀ pid, totalRevAt (syncStoreProducts db storeId batch now) storeId pid =
      batchRev batch pid := by
    intro pid
    rw [totalRevAt_eq_sumFieldAt]
    unfold syncStoreProducts
    rw [sumFieldAt_syncFold ProductMetricRow.totalRevenue
      ProductSalesInput.revenue ProductSalesData.revenue
      (by intro r input n; simp [applyProductUpsert])
      (by intro input n; simp [newProductRow])
      storeId now pid (by intro p; simp [inputOfProduct]) batch
      (resetStoreProducts db storeId)]
    rw [sumFieldAt_resetStoreProducts _ (by intro r; rfl)]
    simp [batchRev]
  have hcount : ∀ sid pid,
      productKeyCount (syncStoreProducts db storeId batch now) sid pid ≤ 1 := by
    intro sid pid
    unfold syncStoreProducts
    refine productKeyCount_syncFold_le_one storeId now batch _ ?_ sid pid
    intro sid2 pid2
    rw [productKeyCount_resetStoreProducts]
    exact hinv sid2 pid2
  refine ⟨hqty, hrev, ?_, ?_⟩
  · intro r hr hstore
    have hkey : productKeyMatches r storeId r.productId = true :=
      (productKeyMatches_eq_keys r storeId r.productId).mpr ⟨hstore, rfl⟩
    have hsingle := filter_eq_singleton_of_count_le_one
      (syncStoreProducts db storeId batch now)
      (fun q => productKeyMatches q storeId r.productId) r
      (hcount storeId r.productId) hr hkey
    constructor
    · have := hqty r.productId
      rw [totalQtyAt, hsingle] at this
      simpa using this
    · have := hrev r.productId
      rw [totalRevAt, hsingle] at this
      simpa using this
  · unfold syncStoreProducts
    rw [filter_other_store_syncFold]
    exact filter_other_store_reset db storeId

/-- Witness for C3: a store with a stale row (`totals = 7, 70`) resynced with
a batch reporting `quantity 3, revenue 30` ends with totals exactly `3, 30` —
the batch's sums alone. -/
theorem resetThenResync_totals_eq_batch_witness :
    totalQtyAt (syncStoreProducts
      [ProductMetricRow.mk "s" "p1" "Old" "img" "url" 7 70 "t0"] "s"
      [ProductSalesData.mk "p1" "New" "img" "url" 3 30] "t1") "s" "p1" = 3 ∧
    totalRevAt (syncStoreProducts
      [ProductMetricRow.mk "s" "p1" "Old" "img" "url" 7 70 "t0"] "s"
      [ProductSalesData.mk "p1" "New" "img" "url" 3 30] "t1") "s" "p1" = 30 := by
  have h := resetThenResync_totals_eq_batch
    [ProductMetricRow.mk "s" "p1" "Old" "img" "url" 7 70 "t0"] "s"
    [ProductSalesData.mk "p1" "New" "img" "url" 3 30] "t1"
    (by
      intro sid pid
      simp only [productKeyCount, List.filter]
      split <;> simp)
  refine ⟨?_, ?_⟩
  · rw [h.1 "p1"]
    simp [batchQty]
  · rw [h.2.1 "p1"]
    simp [batchRev]

/-! ## C6: `TrafficMetricsService` — windowed reset-then-resync

One row per (storeId, landingPagePath, startDate); `resetStoreTraffic` is
`deleteMany({storeId, startDate: {$gte: startDate}})`; `upsertTrafficMetric`
is a find-one-and-update by the full key with `$set` of every non-key field.
`SyncTrafficMetricsJob.handleDailyTrafficSync` resets with the new window's
start, then upserts each fetched landing page with that start date.
`startDate`/`endDate` are modelled as integers (epoch-ordered). -/

structure TrafficMetricRow where
  storeId : String
  landingPagePath : String
  startDate : Int
  landingPageType : String
  onlineStoreVisitors : ℚ
  sessions : ℚ
  sessionsWithCartAdditions : ℚ
  sessionsThatReachedCheckout : ℚ
  endDate : Int
  lastSyncDate : String
deriving DecidableEq, Repr

/-- `TrafficDataInput` of `traffic-metric.service.ts`. -/
structure TrafficDataInput where
  storeId : String
  landingPageType : String
  landingPagePath : String
  onlineStoreVisitors : ℚ
  sessions : ℚ
  sessionsWithCartAdditions : ℚ
  sessionsThatReachedCheckout : ℚ
  startDate : Int
  endDate : Int
deriving DecidableEq, Repr

/-- The `findOneAndUpdate` filter `{storeId, landingPagePath, startDate}`. -/
def trafficKeyMatches (r : TrafficMetricRow) (sid path : String) (sd : Int) : Bool :=
  r.storeId == sid && r.landingPagePath == path && r.startDate == sd

/-- The `$set` document: every non-key field replaced by the input's, plus
`lastSyncDate := now`. -/
def applyTrafficUpsert (r : TrafficMetricRow) (input : TrafficDataInput)
    (now : String) : TrafficMetricRow :=
  { r with landingPageType := input.landingPageType,
           onlineStoreVisitors := input.onlineStoreVisitors,
           sessions := input.sessions,
           sessionsWithCartAdditions := input.sessionsWithCartAdditions,
           sessionsThatReachedCheckout := input.sessionsThatReachedCheckout,
           endDate := input.endDate, lastSyncDate := now }

/-- The row inserted when nothing matches: filter fields plus `$set` fields —
every field comes from the input (and `now`). -/
def newTrafficRow (input : TrafficDataInput) (now : String) : TrafficMetricRow :=
  ⟨input.storeId, input.landingPagePath, input.startDate, input.landingPageType,
   input.onlineStoreVisitors, input.sessions, input.sessionsWithCartAdditions,
   input.sessionsThatReachedCheckout, input.endDate, now⟩

/-- `TrafficMetricsService.upsertTrafficMetric`. -/
def upsertTrafficMetric : List TrafficMetricRow → TrafficDataInput → String →
    List TrafficMetricRow
  | [], input, now => [newTrafficRow input now]
  | r :: rest, input, now =>
    if trafficKeyMatches r input.storeId input.landingPagePath input.startDate then
      applyTrafficUpsert r input now :: rest
    else r :: upsertTrafficMetric rest input now

/-- `TrafficMetricsService.resetStoreTraffic`:
`deleteMany({storeId, startDate: {$gte: startDate}})`. -/
def resetStoreTraffic (db : List TrafficMetricRow) (storeId : String)
    (startDate : Int) : List TrafficMetricRow :=
  db.filter (fun r => !(r.storeId == storeId && decide (startDate ≤ r.startDate)))

/-- `TrafficAnalyticsData` as returned by `ShopifyService.fetchTrafficAnalytics`. -/
structure TrafficAnalyticsData where
  landingPageType : String
  landingPagePath : String
  onlineStoreVisitors : ℚ
  sessions : ℚ
  sessionsWithCartAdditions : ℚ
  sessionsThatReachedCheckout : ℚ
deriving DecidableEq, Repr

/-- The upsert input `SyncTrafficMetricsJob` builds for one fetched landing
page: fresh page fields plus the new window's start/end dates. -/
def inputOfTraffic (storeId : String) (startDate endDate : Int)
    (page : TrafficAnalyticsData) : TrafficDataInput :=
  ⟨storeId, page.landingPageType, page.landingPagePath, page.onlineStoreVisitors,
   page.sessions, page.sessionsWithCartAdditions, page.sessionsThatReachedCheckout,
   startDate, endDate⟩

/-- Per-store body of `SyncTrafficMetricsJob.handleDailyTrafficSync` (and
`handleWeeklyExtendedSync`): reset the window, then upsert each fetched page. -/
def syncStoreTraffic (db : List TrafficMetricRow) (storeId : String)
    (startDate endDate : Int) (trafficData : List TrafficAnalyticsData)
    (now : String) : List TrafficMetricRow :=
  trafficData.foldl
    (fun acc page => upsertTrafficMetric acc (inputOfTraffic storeId startDate endDate page) now)
    (resetStoreTraffic db storeId startDate)

theorem trafficKeyMatches_eq_keys (r : TrafficMetricRow) (sid path : String) (sd : Int) :
    trafficKeyMatches r sid path sd = true ↔
      (r.storeId = sid ∧ r.landingPagePath = path ∧ r.startDate = sd) := by
  simp [trafficKeyMatches, and_assoc]

theorem mem_upsertTrafficMetric (db : List TrafficMetricRow)
    (input : TrafficDataInput) (now : String) (r : TrafficMetricRow)
    (hr : r ∈ upsertTrafficMetric db input now) :
    r ∈ db ∨ r = newTrafficRow input now := by
  induction db with
  | nil =>
    simp only [upsertTrafficMetric, List.mem_singleton] at hr
    exact Or.inr hr
  | cons q rest ih =>
    by_cases hq : trafficKeyMatches q input.storeId input.landingPagePath input.startDate
    · rw [upsertTrafficMetric, if_pos hq] at hr
      rcases List.mem_cons.mp hr with hhead | htail
      · right
        obtain ⟨h1, h2, h3⟩ := (trafficKeyMatches_eq_keys q _ _ _).mp hq
        rw [hhead]
        simp [applyTrafficUpsert, newTrafficRow, h1, h2, h3]
      · exact Or.inl (List.mem_cons_of_mem q htail)
    · rw [upsertTrafficMetric, if_neg hq] at hr
      rcases List.mem_cons.mp hr with hhead | htail
      · exact Or.inl (hhead ▸ List.mem_cons_self q rest)
      · rcases ih htail with h | h
        · exact Or.inl (List.mem_cons_of_mem q h)
        · exact Or.inr h

theorem mem_syncTrafficFold (storeId : String) (startDate endDate : Int) (now : String) :
    ∀ (batch : List TrafficAnalyticsData) (acc : List TrafficMetricRow)
      (r : TrafficMetricRow),
      r ∈ batch.foldl (fun acc page =>
          upsertTrafficMetric acc (inputOfTraffic storeId startDate endDate page) now) acc →
      r ∈ acc ∨ ∃ page ∈ batch,
        r = newTrafficRow (inputOfTraffic storeId startDate endDate page) now := by
  intro batch
  induction batch with
  | nil =>
    intro acc r hr
    exact Or.inl hr
  | cons p rest ih =>
    intro acc r hr
    rw [List.foldl_cons] at hr
    rcases ih _ r hr with h | ⟨page, hpage, heq⟩
    · rcases mem_upsertTrafficMetric _ _ _ _ h with h2 | h2
      · exact Or.inl h2
      · exact Or.inr ⟨p, List.mem_cons_self p rest, h2⟩
    · exact Or.inr ⟨page, List.mem_cons_of_mem p hpage, heq⟩

theorem filter_old_upsertTrafficMetric (db : List TrafficMetricRow)
    (input : TrafficDataInput) (now : String) :
    (upsertTrafficMetric db input now).filter
        (fun r => !(r.storeId == input.storeId && decide (input.startDate ≤ r.startDate))) =
      db.filter
        (fun r => !(r.storeId == input.storeId && decide (input.startDate ≤ r.startDate))) := by
  induction db with
  | nil =>
    simp [upsertTrafficMetric, newTrafficRow]
  | cons q rest ih =>
    by_cases hq : trafficKeyMatches q input.storeId input.landingPagePath input.startDate
    · rw [upsertTrafficMetric, if_pos hq]
      obtain ⟨h1, h2, h3⟩ := (trafficKeyMatches_eq_keys q _ _ _).mp hq
      rw [List.filter_cons_of_neg (by simp [applyTrafficUpsert, h1, h3]),
        List.filter_cons_of_neg (by simp [h1, h3])]
    · rw [upsertTrafficMetric, if_neg hq]
      by_cases hold : (!(q.storeId == input.storeId &&
          decide (input.startDate ≤ q.startDate))) = true
      · rw [List.filter_cons_of_pos (by exact hold),
          List.filter_cons_of_pos (by exact hold), ih]
      · rw [List.filter_cons_of_neg (by simpa using hold),
          List.filter_cons_of_neg (by simpa using hold)]
        exact ih

/-- **C6.** For every store and new traffic window: (i) the reset deletes
exactly the store's rows whose `startDate` is on/after the new window's start;
(ii) after the full resync every row outside the window region — a row of
another store, or one whose `startDate` is strictly before the new start — is
exactly as it was in the old collection; and (iii) every row of the store in
the window region is built solely from one freshly fetched landing page and
the new window's parameters, never a field-by-field mix with stale values. -/
theorem syncStoreTraffic_frame_and_fresh (db : List TrafficMetricRow)
    (storeId : String) (startDate endDate : Int)
    (batch : List TrafficAnalyticsData) (now : String) :
    (∀ r, r ∈ resetStoreTraffic db storeId startDate ↔
      (r ∈ db ∧ ¬(r.storeId = storeId ∧ startDate ≤ r.startDate))) ∧
    ((syncStoreTraffic db storeId startDate endDate batch now).filter
        (fun r => !(r.storeId == storeId && decide (startDate ≤ r.startDate))) =
      db.filter
        (fun r => !(r.storeId == storeId && decide (startDate ≤ r.startDate)))) ∧
    (∀ r ∈ syncStoreTraffic db storeId startDate endDate batch now,
      r.storeId = storeId → startDate ≤ r.startDate →
      ∃ page ∈ batch,
        r = newTrafficRow (inputOfTraffic storeId startDate endDate page) now) := by
  refine ⟨?_, ?_, ?_⟩
  · intro r
    simp [resetStoreTraffic, List.mem_filter, and_comm]
    tauto
  · have hfold : ∀ (b : List TrafficAnalyticsData) (acc : List TrafficMetricRow),
        (b.foldl (fun acc page =>
            upsertTrafficMetric acc (inputOfTraffic storeId startDate endDate page) now)
          acc).filter
            (fun r => !(r.storeId == storeId && decide (startDate ≤ r.startDate))) =
        acc.filter (fun r => !(r.storeId == storeId && decide (startDate ≤ r.startDate))) := by
      intro b
      induction b with
      | nil =>
        intro acc
        simp
      | cons p rest ih =>
        intro acc
        rw [List.foldl_cons, ih]
        exact filter_old_upsertTrafficMetric acc (inputOfTraffic storeId startDate endDate p) now
    unfold syncStoreTraffic
    rw [hfold]
    unfold resetStoreTraffic
    rw [List.filter_filter]
    congr 1
    funext r
    by_cases h : (!(r.storeId == storeId && decide (startDate ≤ r.startDate))) = true <;>
      simp_all
  · intro r hr hsid hsd
    rcases mem_syncTrafficFold storeId startDate endDate now batch _ r hr with h | h
    · exfalso
      have := (List.mem_filter.mp h).2
      simp only [Bool.not_eq_true] at this
      have hcond : (r.storeId == storeId && decide (startDate ≤ r.startDate)) = true := by
        simp [hsid, hsd]
      rw [hcond] at this
      cases this
    · exact h

/-- Witness for C6: a store with a pre-window row (start 5) and a stale
in-window row (start 10) resynced for window start 10 keeps the pre-window row
untouched and ends with the freshly built row in the window. -/
theorem syncStoreTraffic_frame_and_fresh_witness :
    ((syncStoreTraffic
        [TrafficMetricRow.mk "s" "/a" 5 "page" 1 2 3 4 9 "t0",
         TrafficMetricRow.mk "s" "/a" 10 "page" 5 6 7 8 17 "t0"]
        "s" 10 17 [TrafficAnalyticsData.mk "page" "/a" 20 30 40 50] "t1").filter
          (fun r => !(r.storeId == "s" && decide ((10 : Int) ≤ r.startDate))) =
      [TrafficMetricRow.mk "s" "/a" 5 "page" 1 2 3 4 9 "t0"]) ∧
    TrafficMetricRow.mk "s" "/a" 10 "page" 20 30 40 50 17 "t1" ∈
      syncStoreTraffic
        [TrafficMetricRow.mk "s" "/a" 5 "page" 1 2 3 4 9 "t0",
         TrafficMetricRow.mk "s" "/a" 10 "page" 5 6 7 8 17 "t0"]
        "s" 10 17 [TrafficAnalyticsData.mk "page" "/a" 20 30 40 50] "t1" := by
  have h := syncStoreTraffic_frame_and_fresh
    [TrafficMetricRow.mk "s" "/a" 5 "page" 1 2 3 4 9 "t0",
     TrafficMetricRow.mk "s" "/a" 10 "page" 5 6 7 8 17 "t0"]
    "s" 10 17 [TrafficAnalyticsData.mk "page" "/a" 20 30 40 50] "t1"
  refine ⟨?_, ?_⟩
  · rw [h.2.1]
    rfl
  · decide

/-! ## C4 and C5: vendor clients' error handling and the orchestrator loop

The asynchronous vendor call is modelled by an explicit outcome: what the
external API interaction would produce (a payload, or an error).  Each client
function maps its outcome to the audit entries it writes and to an `Except`
value — `Except.error` models a rejected promise propagating to the caller,
`Except.ok` a resolved one.  Audit actions are the `AuditAction` enum strings
(the Google client reuses the Facebook actions, as its source comments note). -/

inductive CallOutcome (α : Type) where
  | ok : α → CallOutcome α
  | err : String → CallOutcome α
deriving DecidableEq

inductive AuditStatus where
  | PENDING
  | SUCCESS
  | FAILURE
deriving DecidableEq, Repr

structure AuditEntry where
  action : String
  status : AuditStatus
deriving DecidableEq, Repr

/-- Store credentials (`store.schema.ts`).  The Google OAuth fields are
optional in the schema; the Facebook/Shopify fields are schema-required but
the client code never checks their presence, so they are modelled as options
to express what the code does when one is absent at runtime. -/
structure Store where
  id : String
  name : String
  shopifyToken : Option String
  shopifyStoreUrl : Option String
  fbAdSpendToken : Option String
  fbAccountId : Option String
  googleAccessToken : Option String
  googleRefreshToken : Option String
  googleCustomerId : Option String
deriving DecidableEq, Repr

/-- JavaScript falsiness of `store.googleCustomerId` (`!store.googleCustomerId`):
absent or empty string. -/
def isFalsyStr : Option String → Bool
  | none => true
  | some s => s == ""

/-- `ShopifyService.fetchOrders` control-flow skeleton: audit PENDING, run the
day loop (abstracted by the outcome), then audit SUCCESS and resolve, or audit
FAILURE and re-throw (`catch … log FAILURE … throw error`). -/
def shopifyFetchOrders (outcome : CallOutcome (List ShopifyDailyRow)) :
    List AuditEntry × Except String (List ShopifyDailyRow) :=
  match outcome with
  | .ok rows =>
    ([⟨"SHOPIFY_SYNC_STARTED", .PENDING⟩, ⟨"SHOPIFY_ORDERS_FETCHED", .SUCCESS⟩], .ok rows)
  | .err e =>
    ([⟨"SHOPIFY_SYNC_STARTED", .PENDING⟩, ⟨"SHOPIFY_SYNC_FAILED", .FAILURE⟩], .error e)

/-- The TypeError raised by `adAccountId.startsWith('act_')` when
`store.fbAccountId` is undefined. -/
def fbAccountIdTypeError : String :=
  "Cannot read properties of undefined (reading 'startsWith')"

/-- `FacebookService.fetchAdSpend` control-flow skeleton: audit PENDING; read
`store.fbAccountId` — if absent the `startsWith` call throws a TypeError,
which the catch audits as FAILURE and re-throws; otherwise run the API call
(abstracted by the outcome): on success audit SUCCESS and resolve, on error
audit FAILURE and re-throw. -/
def facebookFetchAdSpend (store : Store) (outcome : CallOutcome (List SpendRow)) :
    List AuditEntry × Except String (List SpendRow) :=
  match store.fbAccountId with
  | none =>
    ([⟨"FACEBOOK_SYNC_STARTED", .PENDING⟩, ⟨"FACEBOOK_SYNC_FAILED", .FAILURE⟩],
     .error fbAccountIdTypeError)
  | some _ =>
    match outcome with
    | .ok rows =>
      ([⟨"FACEBOOK_SYNC_STARTED", .PENDING⟩, ⟨"FACEBOOK_AD_SPEND_FETCHED", .SUCCESS⟩],
       .ok rows)
    | .err e =>
      ([⟨"FACEBOOK_SYNC_STARTED", .PENDING⟩, ⟨"FACEBOOK_SYNC_FAILED", .FAILURE⟩],
       .error e)

/-- `GoogleService.fetchAdSpend` control-flow skeleton: if
`!store.googleCustomerId`, return `[]` before the try block (no audit, no API
call); otherwise audit PENDING, run token refresh + API call (abstracted by
the outcome): on success audit SUCCESS and resolve, and on ANY error the catch
audits FAILURE and `return []` — the error is swallowed, not re-thrown. -/
def googleFetchAdSpend (store : Store) (outcome : CallOutcome (List SpendRow)) :
    List AuditEntry × Except String (List SpendRow) :=
  if isFalsyStr store.googleCustomerId then ([], .ok [])
  else
    match outcome with
    | .ok rows =>
      ([⟨"FACEBOOK_SYNC_STARTED", .PENDING⟩, ⟨"FACEBOOK_AD_SPEND_FETCHED", .SUCCESS⟩],
       .ok rows)
    | .err _ =>
      ([⟨"FACEBOOK_SYNC_STARTED", .PENDING⟩, ⟨"FACEBOOK_SYNC_FAILED", .FAILURE⟩],
       .ok [])

/-- The three per-store vendor-call outcomes of one run. -/
structure VendorOutcomes where
  shopify : CallOutcome (List ShopifyDailyRow)
  facebook : CallOutcome (List SpendRow)
  google : CallOutcome (List SpendRow)

def isErr {α : Type} : Except String α → Bool
  | .error _ => true
  | .ok _ => false

/-- The upsert input built by the orchestrator from one merged per-date entry. -/
def recordToInput (storeId : String) (p : String × MetricRecord) : CreateMetricInput :=
  ⟨storeId, p.1, p.2.facebookMetaSpend, p.2.googleAdSpend, p.2.shopifySoldOrders,
   p.2.shopifyOrderValue, p.2.shopifySoldItems⟩

/-- One iteration of the store loop of `SyncMetricsJob.handleDailySync`:
`Promise.all` of the three vendor calls (a rejection of any of them rejects
the whole `await`, caught by the per-store catch which skips the upserts),
then merge by date and upsert each entry.  Returns the new collection, whether
the store was processed, and the audit entries written. -/
def storeDailySync (db : List StoreMetricRow) (store : Store) (out : VendorOutcomes) :
    List StoreMetricRow × Bool × List AuditEntry :=
  let s := shopifyFetchOrders out.shopify
  let f := facebookFetchAdSpend store out.facebook
  let g := googleFetchAdSpend store out.google
  let audits := s.1 ++ f.1 ++ g.1
  match s.2, f.2, g.2 with
  | .ok sd, .ok fd, .ok gd =>
    ((mergeByDate sd fd gd).foldl
      (fun acc p => createOrUpdate acc (recordToInput store.id p)) db, true, audits)
  | _, _, _ => (db, false, audits)

/-- The full store loop of `handleDailySync`: sequential over stores, the
per-store try/catch isolating each store's failure. -/
def handleDailySync (db : List StoreMetricRow) (stores : List Store)
    (outs : Store → VendorOutcomes) : List StoreMetricRow × List Bool :=
  stores.foldl (fun acc st =>
    let r := storeDailySync acc.1 st (outs st)
    (r.1, acc.2 ++ [r.2.1])) (db, [])

/-- Whether a store's `Promise.all` resolves: no vendor call rejected. -/
def storeSyncOk (store : Store) (out : VendorOutcomes) : Bool :=
  !(isErr (shopifyFetchOrders out.shopify).2) &&
  !(isErr (facebookFetchAdSpend store out.facebook).2) &&
  !(isErr (googleFetchAdSpend store out.google).2)

/-- A fully-credentialed store used for concrete runs. -/
def sampleStore : Store :=
  ⟨"s1", "Store One", some "shpat", some "shop.example.com", some "fbtok",
   some "act_123", some "gat", some "grt", some "12345"⟩

/-- **C4 counterexample.** A Google vendor-call failure (HTTP 500) is audited
FAILURE but is NOT raised to the orchestrator: `fetchAdSpend` resolves with
`[]`, and the orchestrator does not skip the store — with Shopify and Facebook
succeeding, the store is still processed (`true`) and the day's row is
upserted with `googleAdSpend = 0`, contradicting the claim that every vendor
failure is raised and aborts the store's run. -/
theorem googleFailure_not_raised_counterexample :
    (googleFetchAdSpend sampleStore
        (CallOutcome.err "Request failed with status code 500")).2 = Except.ok [] ∧
    AuditEntry.mk "FACEBOOK_SYNC_FAILED" AuditStatus.FAILURE ∈
      (googleFetchAdSpend sampleStore
        (CallOutcome.err "Request failed with status code 500")).1 ∧
    (storeDailySync [] sampleStore
        ⟨CallOutcome.ok [⟨"2024-11-01", 10, 500, 20⟩],
         CallOutcome.ok [⟨"2024-11-01", 50⟩],
         CallOutcome.err "Request failed with status code 500"⟩).2.1 = true ∧
    (storeDailySync [] sampleStore
        ⟨CallOutcome.ok [⟨"2024-11-01", 10, 500, 20⟩],
         CallOutcome.ok [⟨"2024-11-01", 50⟩],
         CallOutcome.err "Request failed with status code 500"⟩).1 =
      [⟨"s1", "2024-11-01", 50, 0, 10, 500, 20⟩] := by
  refine ⟨rfl, by decide, rfl, by decide⟩

theorem storeDailySync_flag (db : List StoreMetricRow) (store : Store)
    (out : VendorOutcomes) :
    (storeDailySync db store out).2.1 = storeSyncOk store out := by
  unfold storeDailySync storeSyncOk
  rcases hs : (shopifyFetchOrders out.shopify).2 with e | sd <;>
    rcases hf : (facebookFetchAdSpend store out.facebook).2 with e2 | fd <;>
      rcases hg : (googleFetchAdSpend store out.google).2 with e3 | gd <;>
        simp [hs, hf, hg, isErr]

theorem storeDailySync_skips_on_error (db : List StoreMetricRow) (store : Store)
    (out : VendorOutcomes) (h : storeSyncOk store out = false) :
    (storeDailySync db store out).1 = db ∧ (storeDailySync db store out).2.1 = false := by
  refine ⟨?_, (storeDailySync_flag db store out).trans h⟩
  unfold storeSyncOk at h
  unfold storeDailySync
  rcases hs : (shopifyFetchOrders out.shopify).2 with e | sd <;>
    rcases hf : (facebookFetchAdSpend store out.facebook).2 with e2 | fd <;>
      rcases hg : (googleFetchAdSpend store out.google).2 with e3 | gd <;>
        simp [hs, hf, hg, isErr] at h ⊢

theorem handleDailySync_flags_aux (outs : Store → VendorOutcomes) :
    ∀ (stores : List Store) (db : List StoreMetricRow) (acc : List Bool),
      (stores.foldl (fun acc st =>
        let r := storeDailySync acc.1 st (outs st)
        (r.1, acc.2 ++ [r.2.1])) (db, acc)).2 =
      acc ++ stores.map (fun st => storeSyncOk st (outs st)) := by
  intro stores
  induction stores with
  | nil =>
    intro db acc
    simp
  | cons st rest ih =>
    intro db acc
    rw [List.foldl_cons, ih]
    simp [storeDailySync_flag]

/-- **C4 (amended).** Shopify and Facebook vendor-call failures are audited
FAILURE and raised (the promise rejects), and the orchestrator catches the
rejection, skips the rest of that store's processing, and continues: each
store's processed flag depends only on its own outcomes, so a failure for one
store never prevents later stores from being processed.  Google vendor-call
failures are audited FAILURE but swallowed: `fetchAdSpend` resolves with `[]`
and the store's processing continues with the other vendors' data. -/
theorem vendorFailure_audits_and_isolation :
    (∀ e : String, (shopifyFetchOrders (CallOutcome.err e)).2 = Except.error e ∧
      AuditEntry.mk "SHOPIFY_SYNC_FAILED" AuditStatus.FAILURE ∈
        (shopifyFetchOrders (CallOutcome.err e)).1) ∧
    (∀ (store : Store) (e : String), store.fbAccountId ≠ none →
      (facebookFetchAdSpend store (CallOutcome.err e)).2 = Except.error e ∧
      AuditEntry.mk "FACEBOOK_SYNC_FAILED" AuditStatus.FAILURE ∈
        (facebookFetchAdSpend store (CallOutcome.err e)).1) ∧
    (∀ (store : Store) (e : String),
      (googleFetchAdSpend store (CallOutcome.err e)).2 = Except.ok [] ∧
      (isFalsyStr store.googleCustomerId = false →
        AuditEntry.mk "FACEBOOK_SYNC_FAILED" AuditStatus.FAILURE ∈
          (googleFetchAdSpend store (CallOutcome.err e)).1)) ∧
    (∀ (db : List StoreMetricRow) (store : Store) (out : VendorOutcomes),
      storeSyncOk store out = false →
      (storeDailySync db store out).1 = db ∧
      (storeDailySync db store out).2.1 = false) ∧
    (∀ (db : List StoreMetricRow) (stores : List Store)
      (outs : Store → VendorOutcomes),
      (handleDailySync db stores outs).2 =
        stores.map (fun st => storeSyncOk st (outs st))) := by
  refine ⟨?_, ?_, ?_, storeDailySync_skips_on_error, ?_⟩
  · intro e
    exact ⟨rfl, by simp [shopifyFetchOrders]⟩
  · intro store e hfb
    rcases hacct : store.fbAccountId with _ | acct
    · exact absurd hacct hfb
    · simp [facebookFetchAdSpend, hacct]
  · intro store e
    by_cases hg : isFalsyStr store.googleCustomerId
    · simp [googleFetchAdSpend, hg]
    · constructor
      · simp [googleFetchAdSpend, hg]
      · intro
        simp [googleFetchAdSpend, hg]
  · intro db stores outs
    unfold handleDailySync
    rw [handleDailySync_flags_aux]
    simp

/-- Witness for the amended C4: concrete run over two stores where the first
store's Shopify call fails — the first store is skipped, the second store is
still processed. -/
theorem vendorFailure_audits_and_isolation_witness :
    (shopifyFetchOrders (CallOutcome.err "HTTP 500")).2 = Except.error "HTTP 500" ∧
    (handleDailySync []
      [sampleStore, { sampleStore with id := "s2", name := "Store Two" }]
      (fun st => if st.id == "s1" then
        ⟨CallOutcome.err "HTTP 500", CallOutcome.ok [], CallOutcome.ok []⟩
      else
        ⟨CallOutcome.ok [], CallOutcome.ok [], CallOutcome.ok []⟩)).2 =
      [false, true] := by
  constructor
  · exact (vendorFailure_audits_and_isolation.1 "HTTP 500").1
  · rw [vendorFailure_audits_and_isolation.2.2.2.2]
    decide

/-- A store whose `fbAccountId` is absent and with no Google connection. -/
def fbMissingStore : Store :=
  ⟨"s3", "Store Three", some "shpat", some "shop.example.com", some "fbtok",
   none, none, none, none⟩

/-- **C5 counterexample.** A store with no Facebook ad-account id:
`FacebookService.fetchAdSpend` performs no credential check and raises the
`startsWith` TypeError (audited FAILURE) instead of returning an empty
result — the call rejects even when the API interaction itself would have
succeeded, contradicting the claim that Facebook credential absence yields an
empty result rather than an error. -/
theorem facebookMissingCredential_raises_counterexample :
    (facebookFetchAdSpend fbMissingStore (CallOutcome.ok [⟨"2024-11-01", 50⟩])).2 =
      Except.error fbAccountIdTypeError ∧
    isErr (facebookFetchAdSpend fbMissingStore
      (CallOutcome.ok [⟨"2024-11-01", 50⟩])).2 = true ∧
    AuditEntry.mk "FACEBOOK_SYNC_FAILED" AuditStatus.FAILURE ∈
      (facebookFetchAdSpend fbMissingStore (CallOutcome.ok [⟨"2024-11-01", 50⟩])).1 := by
  refine ⟨rfl, rfl, by decide⟩

/-- **C5 (amended).** Credential absence is soft only for Google: with no (or
empty) Google customer id, `fetchAdSpend` returns `[]` without raising, before
any audit or API call, so the store's sync proceeds on the other two vendors
alone.  Facebook has no such soft path: an absent ad-account id makes
`fetchAdSpend` raise a TypeError (audited FAILURE), which rejects the store's
`Promise.all`. -/
theorem credentialAbsence_google_soft_facebook_raises :
    (∀ (store : Store) (out : CallOutcome (List SpendRow)),
      isFalsyStr store.googleCustomerId = true →
      googleFetchAdSpend store out = ([], Except.ok [])) ∧
    (∀ (store : Store) (out : CallOutcome (List SpendRow)),
      store.fbAccountId = none →
      (facebookFetchAdSpend store out).2 = Except.error fbAccountIdTypeError ∧
      AuditEntry.mk "FACEBOOK_SYNC_FAILED" AuditStatus.FAILURE ∈
        (facebookFetchAdSpend store out).1) ∧
    (∀ (store : Store) (out : VendorOutcomes),
      isFalsyStr store.googleCustomerId = true →
      storeSyncOk store out = (!(isErr (shopifyFetchOrders out.shopify).2) &&
        !(isErr (facebookFetchAdSpend store out.facebook).2))) := by
  refine ⟨?_, ?_, ?_⟩
  · intro store out hg
    simp [googleFetchAdSpend, hg]
  · intro store out hfb
    simp [facebookFetchAdSpend, hfb]
  · intro store out hg
    unfold storeSyncOk
    rw [show googleFetchAdSpend store out.google = ([], Except.ok []) from by
      simp [googleFetchAdSpend, hg]]
    simp [isErr]

/-- Witness for the amended C5: `fbMissingStore` has no Google customer id —
its Google fetch yields `([], ok [])` — and no Facebook account id — its
Facebook fetch raises the TypeError. -/
theorem credentialAbsence_google_soft_facebook_raises_witness :
    googleFetchAdSpend fbMissingStore (CallOutcome.ok [⟨"2024-11-01", 30⟩]) =
      ([], Except.ok []) ∧
    (facebookFetchAdSpend fbMissingStore (CallOutcome.ok [⟨"2024-11-01", 50⟩])).2 =
      Except.error fbAccountIdTypeError := by
  constructor
  · exact credentialAbsence_google_soft_facebook_raises.1 fbMissingStore
      (CallOutcome.ok [⟨"2024-11-01", 30⟩]) rfl
  · exact (credentialAbsence_google_soft_facebook_raises.2.1 fbMissingStore
      (CallOutcome.ok [⟨"2024-11-01", 50⟩]) rfl).1

/-! ## C7: `MetricsController.rangeSync` — backfill range validation

`new Date(startDate)` is modelled for the documented ISO `YYYY-MM-DD` request
format: an invalid string parses to `none` (JS `Invalid Date`, `NaN` time); a
valid date is encoded as `y*10000 + m*100 + d`, which is ordered exactly like
the epoch timestamp for calendar dates, so the `from > to` comparison is
faithful. -/

def isLeapYear (y : Nat) : Bool :=
  (y % 4 == 0 && y % 100 != 0) || y % 400 == 0

def daysInMonth (y m : Nat) : Nat :=
  if m = 2 then (if isLeapYear y then 29 else 28)
  else if m = 4 ∨ m = 6 ∨ m = 9 ∨ m = 11 then 30
  else 31

def digitVal (c : Char) : Nat := c.toNat - 48

/-- JS `new Date(s).getTime()` for ISO date-only strings: `none` is `NaN`. -/
def parseDate (s : String) : Option Int :=
  match s.toList with
  | [y1, y2, y3, y4, h1, m1, m2, h2, d1, d2] =>
    if y1.isDigit && y2.isDigit && y3.isDigit && y4.isDigit && h1 == '-' &&
       m1.isDigit && m2.isDigit && h2 == '-' && d1.isDigit && d2.isDigit then
      let y := ((digitVal y1 * 10 + digitVal y2) * 10 + digitVal y3) * 10 + digitVal y4
      let m := digitVal m1 * 10 + digitVal m2
      let d := digitVal d1 * 10 + digitVal d2
      if 1 ≤ m ∧ m ≤ 12 ∧ 1 ≤ d ∧ d ≤ daysInMonth y m then
        some ((y * 10000 + m * 100 + d : Nat) : Int)
      else none
    else none
  | _ => none

/-- The responses `rangeSync` can produce: the explicit error object
`{error, status}` returned for validation failures, the success object, or a
propagated exception (the controller has no try/catch around the vendor
calls). -/
inductive RangeSyncResponse where
  | errorResp (error : String) (status : Nat)
  | success (message : String) (startDate endDate : String) (daysProcessed : Nat)
  | thrown (message : String)
deriving DecidableEq, Repr

/-- `MetricsController.rangeSync` for a resolved store (store lookup is an
external collaborator): parse both dates; reject with a 400 error object if
either is NaN or `from > to` — before any vendor call (flag `false`) and
without any audit entry; otherwise run the three vendor calls, merge by date
and upsert.  Returns (collection, response, audit entries, vendor-calls-made). -/
def rangeSync (db : List StoreMetricRow) (store : Store) (startDate endDate : String)
    (out : VendorOutcomes) :
    List StoreMetricRow × RangeSyncResponse × List AuditEntry × Bool :=
  match parseDate startDate, parseDate endDate with
  | none, _ => (db, .errorResp "Invalid date format. Use YYYY-MM-DD" 400, [], false)
  | some _, none => (db, .errorResp "Invalid date format. Use YYYY-MM-DD" 400, [], false)
  | some f, some t =>
    if t < f then (db, .errorResp "startDate must be before endDate" 400, [], false)
    else
      let s := shopifyFetchOrders out.shopify
      let fb := facebookFetchAdSpend store out.facebook
      let g := googleFetchAdSpend store out.google
      let audits := s.1 ++ fb.1 ++ g.1
      match s.2, fb.2, g.2 with
      | .ok sd, .ok fd, .ok gd =>
        let merged := mergeByDate sd fd gd
        (merged.foldl (fun acc p => createOrUpdate acc (recordToInput store.id p)) db,
         .success ("Range sync completed for store: " ++ store.name) startDate endDate
           merged.length,
         audits, true)
      | .error e, _, _ => (db, .thrown e, audits, true)
      | _, .error e, _ => (db, .thrown e, audits, true)
      | _, _, .error e => (db, .thrown e, audits, true)

/-- **C7.** Every backfill request whose startDate or endDate fails to parse,
or whose startDate is after endDate, is rejected before any vendor call: the
response is the explicit `{error, status: 400}` object (not a thrown
exception), the collection is untouched, no audit entry is created, and no
vendor call is made. -/
theorem rangeSync_rejects_invalid_range (db : List StoreMetricRow) (store : Store)
    (startDate endDate : String) (out : VendorOutcomes) :
    (parseDate startDate = none ∨ parseDate endDate = none →
      rangeSync db store startDate endDate out =
        (db, .errorResp "Invalid date format. Use YYYY-MM-DD" 400, [], false)) ∧
    (∀ f t : Int, parseDate startDate = some f → parseDate endDate = some t → t < f →
      rangeSync db store startDate endDate out =
        (db, .errorResp "startDate must be before endDate" 400, [], false)) := by
  constructor
  · intro h
    unfold rangeSync
    rcases hs : parseDate startDate with _ | f
    · rfl
    · rcases ht : parseDate endDate with _ | t
      · rfl
      · rcases h with h | h
        · rw [hs] at h; cases h
        · rw [ht] at h; cases h
  · intro f t hf ht hlt
    unfold rangeSync
    rw [hf, ht]
    simp [hlt]

/-- Witness for C7, on the spec's example: `startDate="2025-02-01",
endDate="2025-01-01"` is rejected with the ordering error object, untouched
collection, no audits, no vendor call. -/
theorem rangeSync_rejects_invalid_range_witness :
    rangeSync [] sampleStore "2025-02-01" "2025-01-01"
      ⟨CallOutcome.ok [], CallOutcome.ok [], CallOutcome.ok []⟩ =
      ([], .errorResp "startDate must be before endDate" 400, [], false) := by
  exact (rangeSync_rejects_invalid_range [] sampleStore "2025-02-01" "2025-01-01"
    ⟨CallOutcome.ok [], CallOutcome.ok [], CallOutcome.ok []⟩).2
    20250201 20250101 (by decide) (by decide) (by decide)

/-! ## C8: `FacebookService.callFacebook` — rate-limit retry

`resp k` is what the k-th HTTP attempt returns: a payload, or an API error
with a code and message.  The model returns the final result together with
the list of sleeps performed (`2000` ms before each retry), mirroring
`if (errData?.error?.code === 17 && retry < 3) { await sleep(2000); return
this.callFacebook(url, params, retry + 1); } … throw`. -/

inductive FbApiResult (α : Type) where
  | ok : α → FbApiResult α
  | apiError (code : Int) (message : String) : FbApiResult α
deriving DecidableEq

/-- `FacebookService.callFacebook` with its retry counter. -/
def callFacebook {α : Type} (resp : Nat → FbApiResult α) (retry : Nat) :
    Except String α × List Nat :=
  match resp retry with
  | .ok d => (.ok d, [])
  | .apiError code msg =>
    if h : code = 17 ∧ retry < 3 then
      let r := callFacebook resp (retry + 1)
      (r.1, 2000 :: r.2)
    else (.error msg, [])
termination_by 4 - retry
decreasing_by
  simp_wf
  omega

theorem callFacebook_spec_aux {α : Type} (resp : Nat → FbApiResult α) :
    ∀ (n retry : Nat), retry + n = 3 →
      (callFacebook resp retry).2.length ≤ n ∧
      (∀ dl ∈ (callFacebook resp retry).2, dl = 2000) ∧
      (∀ k, k < (callFacebook resp retry).2.length →
        ∃ m, resp (retry + k) = .apiError 17 m) ∧
      (∀ v, (callFacebook resp retry).1 = .ok v ↔
        resp (retry + (callFacebook resp retry).2.length) = .ok v) ∧
      (∀ msg, (callFacebook resp retry).1 = .error msg →
        ∃ c, resp (retry + (callFacebook resp retry).2.length) = .apiError c msg ∧
          (c = 17 → retry + (callFacebook resp retry).2.length = 3)) := by
  intro n
  induction n with
  | zero =>
    intro retry hr
    have h3 : retry = 3 := by omega
    subst h3
    rcases hresp : resp 3 with d | ⟨code, msg⟩
    · have hcf : callFacebook resp 3 = (Except.ok d, []) := by
        rw [callFacebook.eq_def, hresp]
      rw [hcf]
      simp [hresp]
    · have hcond : ¬(code = 17 ∧ 3 < 3) := by omega
      have hcf : callFacebook resp 3 = (Except.error msg, []) := by
        rw [callFacebook.eq_def, hresp]
        simp only [dif_neg hcond]
      rw [hcf]
      refine ⟨by simp, by simp, by simp, by simp [hresp], ?_⟩
      intro msg2 hmsg
      simp only [Except.error.injEq] at hmsg
      subst hmsg
      exact ⟨code, by simpa using hresp, fun _ => by simp⟩
  | succ n ih =>
    intro retry hr
    rcases hresp : resp retry with d | ⟨code, msg⟩
    · have hcf : callFacebook resp retry = (Except.ok d, []) := by
        rw [callFacebook.eq_def, hresp]
      rw [hcf]
      simp [hresp]
    · by_cases hcond : code = 17 ∧ retry < 3
      · have hcf : callFacebook resp retry =
            ((callFacebook resp (retry + 1)).1, 2000 :: (callFacebook resp (retry + 1)).2) := by
          rw [callFacebook.eq_def, hresp]
          simp only [dif_pos hcond]
        rw [hcf]
        obtain ⟨ihlen, ihdl, ihretry, ihok, iherr⟩ := ih (retry + 1) (by omega)
        refine ⟨by simpa using ihlen, ?_, ?_, ?_, ?_⟩
        · intro dl hdl
          simp only [List.mem_cons] at hdl
          rcases hdl with rfl | hdl
          · rfl
          · exact ihdl dl hdl
        · intro k hk
          simp only [List.length_cons] at hk
          rcases k with _ | j
          · exact ⟨msg, by rw [Nat.add_zero, hresp, hcond.1]⟩
          · have := ihretry j (by omega)
            rw [show retry + (j + 1) = retry + 1 + j by omega]
            exact this
        · intro v
          simp only [List.length_cons]
          have := ihok v
          rw [show retry + ((callFacebook resp (retry + 1)).2.length + 1) =
            retry + 1 + (callFacebook resp (retry + 1)).2.length by omega]
          exact this
        · intro msg2 hmsg
          simp only [List.length_cons] at hmsg ⊢
          obtain ⟨c, hc1, hc2⟩ := iherr msg2 hmsg
          refine ⟨c, ?_, ?_⟩
          · rw [show retry + ((callFacebook resp (retry + 1)).2.length + 1) =
              retry + 1 + (callFacebook resp (retry + 1)).2.length by omega]
            exact hc1
          · intro hc17
            have := hc2 hc17
            omega
      · have hcf : callFacebook resp retry = (Except.error msg, []) := by
          rw [callFacebook.eq_def, hresp]
          simp only [dif_neg hcond]
        rw [hcf]
        refine ⟨by simp, by simp, by simp, by simp [hresp], ?_⟩
        intro msg2 hmsg
        simp only [Except.error.injEq] at hmsg
        subst hmsg
        refine ⟨code, by simpa using hresp, ?_⟩
        intro hc17
        exfalso
        exact hcond ⟨hc17, by omega⟩

/-- **C8.** The retry helper, entered with `retry = 0`: it waits a fixed 2000
ms before each retry and retries at most 3 times (so at most 4 attempts and
the recursion always terminates — the model is a total function); every retry
is provoked only by API error code 17 (the rate-limit code); the call resolves
iff the final attempt succeeds; and any other error — or exhaustion of the 3
retries even on code 17 — makes the call raise the error message. -/
theorem callFacebook_retry_spec {α : Type} (resp : Nat → FbApiResult α) :
    (callFacebook resp 0).2.length ≤ 3 ∧
    (∀ dl ∈ (callFacebook resp 0).2, dl = 2000) ∧
    (∀ k, k < (callFacebook resp 0).2.length → ∃ m, resp k = .apiError 17 m) ∧
    (∀ v, (callFacebook resp 0).1 = .ok v ↔
      resp (callFacebook resp 0).2.length = .ok v) ∧
    (∀ msg, (callFacebook resp 0).1 = .error msg →
      ∃ c, resp (callFacebook resp 0).2.length = .apiError c msg ∧
        (c = 17 → (callFacebook resp 0).2.length = 3)) := by
  have h := callFacebook_spec_aux resp 3 0 rfl
  simpa using h

/-- Witness for C8: a call whose first two attempts hit the rate limit (code
17) and whose third attempt succeeds — two 2000 ms waits, then success. -/
theorem callFacebook_retry_spec_witness :
    (callFacebook (fun k => if k < 2 then FbApiResult.apiError 17 "rate limited"
      else FbApiResult.ok (42 : Int)) 0) = (Except.ok 42, [2000, 2000]) ∧
    (callFacebook (fun k => if k < 2 then FbApiResult.apiError 17 "rate limited"
      else FbApiResult.ok (42 : Int)) 0).2.length ≤ 3 := by
  constructor
  · rw [callFacebook]
    simp only [show (0 : Nat) < 2 by omega, if_pos, reduceIte]
    rw [callFacebook]
    simp only [reduceIte]
    rw [callFacebook]
    simp
  · exact (callFacebook_retry_spec (fun k =>
      if k < 2 then FbApiResult.apiError 17 "rate limited"
      else FbApiResult.ok (42 : Int))).1

/-! ## C9: `FacebookService.calculateMetrics` — zero-guarded derived ratios

An insight row is modelled with its numeric fields already parsed (the
`parseFloat(x || '0')` / `parseInt(x || '0', 10)` calls); `actions` and
`action_values` are lists of (action_type, value).  JS `Math.round` is
`⌊x + 1/2⌋`.  Working in ℚ makes every division total, and the guards ensure
a ratio is 0 whenever its denominator is 0 — the ℚ counterpart of "never
NaN/Infinity". -/

structure FbAction where
  actionType : String
  value : Int
deriving DecidableEq, Repr

structure FbActionValue where
  actionType : String
  value : ℚ
deriving DecidableEq, Repr

structure FbInsight where
  spend : ℚ
  impressions : Int
  reach : Int
  frequency : ℚ
  clicks : Int
  inlineLinkClicks : Int
  actions : List FbAction
  actionValues : List FbActionValue
deriving DecidableEq, Repr

/-- `FacebookService.mapActionTypeToName`. -/
def mapActionTypeToName (actionType : String) : String :=
  match actionType with
  | "onsite_conversion.messaging_conversation_started_7d_click" =>
    "Messaging conversations started"
  | "messaging_conversation_started" => "Messaging conversations started"
  | "add_payment_info" => "Website payment info adds"
  | "add_to_cart" => "Website adds to cart"
  | "initiate_checkout" => "Website checkouts initiated"
  | "view_content" => "Website content views"
  | "lead" => "Leads"
  | "complete_registration" => "Registrations"
  | "purchase" => "Website purchases"
  | "offsite_conversion.fb_pixel_purchase" => "Website purchases"
  | "landing_page_view" => "Landing page views"
  | "link_click" => "Link clicks"
  | "post_engagement" => "Post engagements"
  | "app_install" => "App installs"
  | "video_view" => "Video views"
  | other => other

/-- `getActionValue`: `parseInt(action?.value || '0', 10)`. -/
def getActionValue (actions : List FbAction) (t : String) : Int :=
  ((actions.find? (fun a => a.actionType == t)).map FbAction.value).getD 0

/-- `getActionCurrency`: `parseFloat(action?.value || '0')`. -/
def getActionCurrency (avs : List FbActionValue) (t : String) : ℚ :=
  ((avs.find? (fun a => a.actionType == t)).map FbActionValue.value).getD 0

/-- JS `Math.round`: round half towards +∞. -/
def jsRound (x : ℚ) : Int := ⌊x + 1 / 2⌋

/-- `Math.round(x * 100) / 100`: round to 2 decimal places. -/
def round2 (x : ℚ) : ℚ := (jsRound (x * 100) : ℚ) / 100

/-- JS `String.prototype.toLowerCase` (character-wise lowering; the objective
enum values are ASCII). -/
def jsToLowerCase (s : String) : String := String.mk (s.data.map Char.toLower)

/-- The `switch (objective.toLowerCase())` picking the primary result; the
default arm is `getActionValue('offsite_conversion.fb_pixel_purchase') ||
linkClicks` (JS `||`: the fallback is used when the first operand is 0). -/
def computeResults (insight : FbInsight) (objective : String) : Int :=
  match jsToLowerCase objective with
  | "conversions" | "outcome_sales" =>
    getActionValue insight.actions "offsite_conversion.fb_pixel_purchase"
  | "lead_generation" | "outcome_leads" => getActionValue insight.actions "lead"
  | "link_clicks" | "outcome_traffic" => insight.inlineLinkClicks
  | "post_engagement" | "outcome_engagement" =>
    getActionValue insight.actions "post_engagement"
  | "app_installs" | "outcome_app_promotion" =>
    getActionValue insight.actions "app_install"
  | "video_views" => getActionValue insight.actions "video_view"
  | _ =>
    let p := getActionValue insight.actions "offsite_conversion.fb_pixel_purchase"
    if p = 0 then insight.inlineLinkClicks else p

structure CalculatedMetrics where
  results : Int
  detailedResults : List (String × String × Int)
  reach : Int
  impressions : Int
  frequency : ℚ
  costPerResult : ℚ
  amountSpent : ℚ
  cpm : ℚ
  linkClicks : Int
  cpc : ℚ
  ctr : ℚ
  linkCtr : ℚ
  landingPageViews : Int
  resultRoas : ℚ
  resultsValue : ℚ
deriving DecidableEq, Repr

/-- `FacebookService.calculateMetrics`. -/
def calculateMetrics (insight : FbInsight) (objective : String) : CalculatedMetrics :=
  let spend := insight.spend
  let impressions := insight.impressions
  let clicks := insight.clicks
  let linkClicks := insight.inlineLinkClicks
  let results := computeResults insight objective
  let resultsValue :=
    getActionCurrency insight.actionValues "offsite_conversion.fb_pixel_purchase"
  { results := results
    detailedResults := insight.actions.map
      (fun a => (a.actionType, mapActionTypeToName a.actionType, a.value))
    reach := insight.reach
    impressions := impressions
    frequency := round2 insight.frequency
    costPerResult := if 0 < results then round2 (spend / (results : ℚ)) else 0
    amountSpent := round2 spend
    cpm := if 0 < impressions then round2 (spend / (impressions : ℚ) * 1000) else 0
    linkClicks := linkClicks
    cpc := if 0 < clicks then round2 (spend / (clicks : ℚ)) else 0
    ctr := if 0 < impressions then
      (jsRound ((clicks : ℚ) / (impressions : ℚ) * 10000) : ℚ) / 100 else 0
    linkCtr := if 0 < impressions then
      (jsRound ((linkClicks : ℚ) / (impressions : ℚ) * 10000) : ℚ) / 100 else 0
    landingPageViews := getActionValue insight.actions "landing_page_view"
    resultRoas := if 0 < resultsValue ∧ 0 < spend then round2 (resultsValue / spend) else 0
    resultsValue := round2 resultsValue }

/-- **C9.** The derived ratios are zero-guarded: `impressions = 0` forces
CPM, CTR and link-CTR to 0; `clicks = 0` forces CPC to 0; computed
`results = 0` forces cost-per-result to 0; `resultsValue = 0` (the raw pixel
purchase value) or `spend = 0` forces ROAS to 0 — no division by a zero
denominator ever happens (the ℚ model is total, so no NaN/Infinity) — and
every derived ratio is a multiple of 1/100, i.e. rounded to 2 decimal places
(CTR and link-CTR as percentages rounded to 2 decimals). -/
theorem calculateMetrics_zero_guards_and_rounding (insight : FbInsight)
    (objective : String) :
    (insight.impressions = 0 →
      (calculateMetrics insight objective).cpm = 0 ∧
      (calculateMetrics insight objective).ctr = 0 ∧
      (calculateMetrics insight objective).linkCtr = 0) ∧
    (insight.clicks = 0 → (calculateMetrics insight objective).cpc = 0) ∧
    ((calculateMetrics insight objective).results = 0 →
      (calculateMetrics insight objective).costPerResult = 0) ∧
    (getActionCurrency insight.actionValues "offsite_conversion.fb_pixel_purchase" = 0 ∨
        insight.spend = 0 →
      (calculateMetrics insight objective).resultRoas = 0) ∧
    (∃ n : Int, (calculateMetrics insight objective).cpm = (n : ℚ) / 100) ∧
    (∃ n : Int, (calculateMetrics insight objective).cpc = (n : ℚ) / 100) ∧
    (∃ n : Int, (calculateMetrics insight objective).ctr = (n : ℚ) / 100) ∧
    (∃ n : Int, (calculateMetrics insight objective).linkCtr = (n : ℚ) / 100) ∧
    (∃ n : Int, (calculateMetrics insight objective).costPerResult = (n : ℚ) / 100) ∧
    (∃ n : Int, (calculateMetrics insight objective).resultRoas = (n : ℚ) / 100) := by
  refine ⟨?_, ?_, ?_, ?_, ?_, ?_, ?_, ?_, ?_, ?_⟩
  · intro h
    refine ⟨?_, ?_, ?_⟩ <;> simp [calculateMetrics, h]
  · intro h
    simp [calculateMetrics, h]
  · intro h
    simp only [calculateMetrics] at h ⊢
    rw [h] at *
    simp [h]
  · intro h
    rcases h with h | h
    · simp [calculateMetrics, h]
    · simp only [calculateMetrics]
      rw [if_neg]
      rintro ⟨_, hs⟩
      rw [h] at hs
      exact lt_irrefl 0 hs
  · simp only [calculateMetrics]
    split
    · exact ⟨jsRound (insight.spend / (insight.impressions : ℚ) * 1000 * 100), rfl⟩
    · exact ⟨0, by norm_num⟩
  · simp only [calculateMetrics]
    split
    · exact ⟨jsRound (insight.spend / (insight.clicks : ℚ) * 100), rfl⟩
    · exact ⟨0, by norm_num⟩
  · simp only [calculateMetrics]
    split
    · exact ⟨jsRound ((insight.clicks : ℚ) / (insight.impressions : ℚ) * 10000), rfl⟩
    · exact ⟨0, by norm_num⟩
  · simp only [calculateMetrics]
    split
    · exact ⟨jsRound ((insight.inlineLinkClicks : ℚ) / (insight.impressions : ℚ) * 10000),
        rfl⟩
    · exact ⟨0, by norm_num⟩
  · simp only [calculateMetrics]
    split
    · exact ⟨jsRound (insight.spend / (computeResults insight objective : ℚ) * 100), rfl⟩
    · exact ⟨0, by norm_num⟩
  · simp only [calculateMetrics]
    split
    · exact ⟨jsRound (getActionCurrency insight.actionValues
        "offsite_conversion.fb_pixel_purchase" / insight.spend * 100), rfl⟩
    · exact ⟨0, by norm_num⟩

/-- Witness for C9, on the spec's examples: spend 100 with 0 impressions gives
CPM 0 (not NaN/Infinity); no purchase/link-click actions gives results 0 and
cost-per-result 0; ROAS is 0 with no purchase value. -/
theorem calculateMetrics_zero_guards_and_rounding_witness :
    (calculateMetrics (FbInsight.mk 100 0 0 0 0 0 [] []) "").cpm = 0 ∧
    (calculateMetrics (FbInsight.mk 100 0 0 0 0 0 [] []) "").results = 0 ∧
    (calculateMetrics (FbInsight.mk 100 0 0 0 0 0 [] []) "").costPerResult = 0 ∧
    (calculateMetrics (FbInsight.mk 100 0 0 0 0 0 [] []) "").resultRoas = 0 := by
  have h := calculateMetrics_zero_guards_and_rounding
    (FbInsight.mk 100 0 0 0 0 0 [] []) ""
  refine ⟨(h.1 rfl).1, ?_, ?_, ?_⟩
  · decide
  · exact h.2.2.1 (by decide)
  · exact h.2.2.2.1 (Or.inl (by decide))

/-! ## C10: `ShopifyService.fetchProductSales` — per-order revenue allocation

Each order carries a total price and line items with a quantity and a possibly
null product (`item.node.product` is null for deleted products;
`featuredImage?.url || ''` and `onlineStoreUrl || ''` are modelled as the
already-resolved string fields).  `totalItems` sums the quantities of ALL line
items; items with a null product are `continue`d — skipped for attribution
while still counted in the denominator. -/

structure ShopifyProduct where
  id : String
  title : String
  imageUrl : String
  onlineStoreUrl : String
deriving DecidableEq, Repr

structure LineItem where
  quantity : ℚ
  product : Option ShopifyProduct
deriving DecidableEq, Repr

structure ShopifyOrder where
  totalPrice : ℚ
  lineItems : List LineItem
deriving DecidableEq, Repr

/-- `lineItems.edges.reduce((sum, item) => sum + item.node.quantity, 0)`. -/
def orderTotalItems (o : ShopifyOrder) : ℚ :=
  o.lineItems.foldl (fun s it => s + it.quantity) 0

/-- Total quantity of the items whose product is non-null. -/
def nonNullQuantity (o : ShopifyOrder) : ℚ :=
  ((o.lineItems.filter (fun it => it.product.isSome)).map LineItem.quantity).sum

/-- `existing.quantitySold += quantity; existing.revenue += itemRevenue` on the
(unique) map entry for the product id. -/
def bumpFirst : List ProductSalesData → String → ℚ → ℚ → List ProductSalesData
  | [], _, _, _ => []
  | e :: rest, pid, q, rev =>
    if e.productId == pid then
      { e with quantitySold := e.quantitySold + q, revenue := e.revenue + rev } :: rest
    else e :: bumpFirst rest pid q rev

/-- The body of the per-item branch: `if (!productMap.has(productId))` create
the zero entry, then accumulate quantity and revenue into it. -/
def bumpProduct (m : List ProductSalesData) (product : ShopifyProduct)
    (quantity itemRevenue : ℚ) : List ProductSalesData :=
  let m1 := if m.any (fun e => e.productId == product.id) then m
    else m ++ [⟨product.id, product.title, product.imageUrl,
      product.onlineStoreUrl, 0, 0⟩]
  bumpFirst m1 product.id quantity itemRevenue

/-- The `for (const item of order.node.lineItems.edges)` loop of
`fetchProductSales` for one order: null products are skipped, every other
item contributes `(quantity / totalItems) * orderTotal` to its product. -/
def processOrder (m : List ProductSalesData) (o : ShopifyOrder) :
    List ProductSalesData :=
  let orderTotal := o.totalPrice
  let totalItems := orderTotalItems o
  o.lineItems.foldl (fun acc item =>
    match item.product with
    | none => acc
    | some product =>
      let itemRevenue := item.quantity / totalItems * orderTotal
      bumpProduct acc product item.quantity itemRevenue) m

/-- The whole pagination loop: all fetched orders folded into the product map. -/
def fetchProductSalesAggregate (orders : List ShopifyOrder) : List ProductSalesData :=
  orders.foldl processOrder []

/-- Total revenue attributed across the product map. -/
def totalRevenueOf (m : List ProductSalesData) : ℚ :=
  (m.map ProductSalesData.revenue).sum

theorem totalRevenueOf_bumpFirst (m : List ProductSalesData) (pid : String)
    (q rev : ℚ) (hmem : m.any (fun e => e.productId == pid) = true) :
    totalRevenueOf (bumpFirst m pid q rev) = totalRevenueOf m + rev := by
  induction m with
  | nil => simp at hmem
  | cons e rest ih =>
    by_cases he : e.productId == pid
    · simp only [bumpFirst, if_pos he]
      simp only [totalRevenueOf, List.map_cons, List.sum_cons]
      ring
    · simp only [bumpFirst, if_neg he]
      simp only [List.any_cons, Bool.or_eq_true] at hmem
      rcases hmem with hmem | hmem
      · exact absurd hmem he
      · simp only [totalRevenueOf, List.map_cons, List.sum_cons] at *
        rw [ih hmem]
        ring

theorem totalRevenueOf_bumpProduct (m : List ProductSalesData)
    (product : ShopifyProduct) (q rev : ℚ) :
    totalRevenueOf (bumpProduct m product q rev) = totalRevenueOf m + rev := by
  unfold bumpProduct
  by_cases hmem : m.any (fun e => e.productId == product.id) = true
  · rw [if_pos hmem]
    exact totalRevenueOf_bumpFirst m product.id q rev hmem
  · rw [if_neg hmem]
    rw [totalRevenueOf_bumpFirst _ product.id q rev (by simp)]
    simp [totalRevenueOf]

theorem sum_map_mul_const (l : List ℚ) (c : ℚ) :
    (l.map (fun q => q * c)).sum = l.sum * c := by
  induction l with
  | nil => simp
  | cons x rest ih =>
    simp only [List.map_cons, List.sum_cons, ih]
    ring

theorem foldl_add_quantity (l : List LineItem) :
    ∀ a : ℚ, l.foldl (fun s it => s + it.quantity) a = a + (l.map LineItem.quantity).sum := by
  induction l with
  | nil =>
    intro a
    simp
  | cons x rest ih =>
    intro a
    rw [List.foldl_cons, ih]
    simp only [List.map_cons, List.sum_cons]
    ring

theorem totalRevenueOf_itemFold (T total : ℚ) :
    ∀ (items : List LineItem) (m : List ProductSalesData),
      totalRevenueOf (items.foldl (fun acc item =>
        match item.product with
        | none => acc
        | some product =>
          bumpProduct acc product item.quantity (item.quantity / T * total)) m) =
      totalRevenueOf m +
        ((items.filter (fun it => it.product.isSome)).map
          (fun it => it.quantity / T * total)).sum := by
  intro items
  induction items with
  | nil =>
    intro m
    simp
  | cons it rest ih =>
    intro m
    rw [List.foldl_cons]
    rcases hprod : it.product with _ | product
    · rw [List.filter_cons_of_neg (by simp [hprod])]
      simp only [hprod]
      exact ih m
    · rw [List.filter_cons_of_pos (by simp [hprod])]
      simp only [hprod]
      rw [ih]
      rw [totalRevenueOf_bumpProduct]
      simp only [List.map_cons, List.sum_cons]
      ring

/-- **C10.** For every order with positive total item quantity: the revenue
attributed by `fetchProductSales`'s per-order loop equals
`(non-null quantity / totalItems) × orderTotal` — line items with a null
product still count in `totalItems` but their share is attributed to no
product — and when every line item has a non-null product the attributed
amounts sum exactly to the order's total price. -/
theorem fetchProductSales_revenue_allocation (m : List ProductSalesData)
    (o : ShopifyOrder) (hT : 0 < orderTotalItems o) :
    totalRevenueOf (processOrder m o) =
      totalRevenueOf m + nonNullQuantity o / orderTotalItems o * o.totalPrice ∧
    ((∀ it ∈ o.lineItems, it.product.isSome) →
      totalRevenueOf (processOrder m o) = totalRevenueOf m + o.totalPrice) := by
  have hTne : orderTotalItems o ≠ 0 := ne_of_gt hT
  have hmain : totalRevenueOf (processOrder m o) =
      totalRevenueOf m + nonNullQuantity o / orderTotalItems o * o.totalPrice := by
    unfold processOrder
    rw [totalRevenueOf_itemFold (orderTotalItems o) o.totalPrice o.lineItems m]
    congr 1
    have hmap : (o.lineItems.filter (fun it => it.product.isSome)).map
        (fun it => it.quantity / orderTotalItems o * o.totalPrice) =
        ((o.lineItems.filter (fun it => it.product.isSome)).map LineItem.quantity).map
          (fun q => q * (o.totalPrice / orderTotalItems o)) := by
      rw [List.map_map]
      apply List.map_congr_left
      intro it _
      show it.quantity / orderTotalItems o * o.totalPrice =
        it.quantity * (o.totalPrice / orderTotalItems o)
      field_simp
    rw [hmap, sum_map_mul_const]
    unfold nonNullQuantity
    field_simp
  refine ⟨hmain, ?_⟩
  intro hall
  rw [hmain]
  have hfilter : o.lineItems.filter (fun it => it.product.isSome) = o.lineItems :=
    List.filter_eq_self.mpr (fun it hit => hall it hit)
  have hsum : nonNullQuantity o = orderTotalItems o := by
    unfold nonNullQuantity orderTotalItems
    rw [hfilter, foldl_add_quantity o.lineItems 0, zero_add]
  rw [hsum, div_mul_eq_mul_div, mul_comm, mul_div_assoc, div_self hTne, mul_one]

/-- Witness for C10: an order of total 10 with one attributed item (quantity
1, product p) and one null-product item (quantity 1) attributes 5 — half the
order — to product p and nothing elsewhere; had both items carried products,
the attribution would total the full 10. -/
theorem fetchProductSales_revenue_allocation_witness :
    totalRevenueOf (processOrder [] (ShopifyOrder.mk 10
      [LineItem.mk 1 (some (ShopifyProduct.mk "p" "P" "" "")), LineItem.mk 1 none])) =
      5 ∧
    totalRevenueOf (processOrder [] (ShopifyOrder.mk 10
      [LineItem.mk 1 (some (ShopifyProduct.mk "p" "P" "" "")),
       LineItem.mk 1 (some (ShopifyProduct.mk "q" "Q" "" ""))])) = 10 := by
  constructor
  · have h := fetchProductSales_revenue_allocation [] (ShopifyOrder.mk 10
      [LineItem.mk 1 (some (ShopifyProduct.mk "p" "P" "" "")), LineItem.mk 1 none])
      (by norm_num [orderTotalItems])
    rw [h.1]
    norm_num [totalRevenueOf, nonNullQuantity, orderTotalItems]
  · have h := fetchProductSales_revenue_allocation [] (ShopifyOrder.mk 10
      [LineItem.mk 1 (some (ShopifyProduct.mk "p" "P" "" "")),
       LineItem.mk 1 (some (ShopifyProduct.mk "q" "Q" "" ""))])
      (by norm_num [orderTotalItems])
    rw [h.2 (by decide)]
    norm_num [totalRevenueOf]

end AdSync
